import Mathlib

/-!
# Homing sequencer of the differential wrist (`main/home.c`)

A shallow embedding of `homing_task` and its three helpers.

Modelling decisions:

* A C `float` or `double` value is the rational number it denotes.  Every
  floating-point operation of the source is the exact operation followed by
  IEEE 754 rounding to nearest, ties to even: `to_float` rounds to binary32
  (24 significand bits, subnormals below `2^-126`), `to_double` to binary64.
  The readings, the fields `pos_ctrl` and `speed_ctrl` and the constants of
  `home.h` that enter arithmetic are taken to be `float`s, as the `float`
  locals and the literals with suffix `f` that the source assigns to and from
  them indicate; `POSITION_TOLERANCE` enters only a comparison, which is
  exact for a `float` and for a `double`.  The literal `0.3` of line 66 is a
  `double`, so that subtraction is rounded to `double` and then to `float`
  when it is stored.  The literals `0.2f` and `0.3` are `to_float (1 / 5)`
  and `to_double (3 / 10)`; `2.0f`, `-0.5f` and `0.0` denote `2`, `-1/2` and
  `0` exactly.  The product of line 104 is not rounded: a `float` times
  `-1`, `0` or `1` is exact.
* Rounding has no upper bound on the exponent: where the C operation would
  overflow to an infinity the rounded value exceeds `float_max`.  Infinities
  and NaN are outside the model, and the statements about a rounded result
  assume `float_finite` of it.
* The constants that `home.h` supplies (`POSITION_TOLERANCE`,
  `COARSE_HOMING_SPEED`, `FINE_HOMING_SPEED`, `ENDSTOP_A_POSITION`,
  `A_AXIS_MAX`, `ENDSTOP_B_POSITION`) are the fields of `config_t`, a
  parameter of every function that uses one.
* What the hardware returns during one pass of the loop body is the record
  `inputs_t`: the two GPIO levels and the two encoder readings.  Every branch
  of the switch reads each of them at most once, and never reads an encoder
  after writing it, so one value per pass is enough.
* `as5600_set_position` appends to a per-encoder log of written values
  (most recent first).
* The locals `dir`, `rising_edge`, `falling_edge` are declared without an
  initialiser; they are `Option`s that start at `none`.  Reading one that is
  still `none` yields the indeterminate value carried by `inputs_t`.
* `ESP_LOGI` output is not modelled; the local `last_logged_state` is.
-/

namespace Homing

/-- The enumeration `homing_state_t` declared inside `homing_task`. -/
inductive homing_state_t where
  | FINDING_A_AXIS_END_COARSE
  | BACKING_OFF_A_ENDSTOP
  | FINDING_A_AXIS_END_FINE
  | MOVING_TO_B_END
  | MOVING_NEXT_TO_B_END_SWITCH
  | FINDING_B_AXIS_RISING_EDGE
  | FINDING_B_AXIS_FALLING_EDGE
  | MOVING_TO_ZERO
  | FINISHED
  deriving DecidableEq, Repr

open homing_state_t

/-- The integer value C gives each enumerator (declaration order, from 0). -/
def homing_state_t.val : homing_state_t → Int
  | FINDING_A_AXIS_END_COARSE => 0
  | BACKING_OFF_A_ENDSTOP => 1
  | FINDING_A_AXIS_END_FINE => 2
  | MOVING_TO_B_END => 3
  | MOVING_NEXT_TO_B_END_SWITCH => 4
  | FINDING_B_AXIS_RISING_EDGE => 5
  | FINDING_B_AXIS_FALLING_EDGE => 6
  | MOVING_TO_ZERO => 7
  | FINISHED => 8

/-- The constants of `home.h` used by `home.c`. -/
structure config_t where
  POSITION_TOLERANCE : ℚ
  COARSE_HOMING_SPEED : ℚ
  FINE_HOMING_SPEED : ℚ
  ENDSTOP_A_POSITION : ℚ
  A_AXIS_MAX : ℚ
  ENDSTOP_B_POSITION : ℚ

/-- The encoder handle: the values written by `as5600_set_position`, most
recent first. -/
structure as5600_t where
  set_log : List ℚ
  deriving DecidableEq

/-- One axis: its encoder and the two commanded values. -/
structure axis_t where
  encoder : as5600_t
  pos_ctrl : ℚ
  speed_ctrl : ℚ
  deriving DecidableEq

/-- The wrist: axis A and axis B. -/
structure wrist_t where
  axis_a : axis_t
  axis_b : axis_t
  deriving DecidableEq

/-- What the hardware returns during one pass of the loop body. -/
structure inputs_t where
  /-- The value of `gpio_get_level(ENDSTOP_A_PIN)`. -/
  level_a : Int
  /-- The value of `gpio_get_level(ENDSTOP_B_PIN)`. -/
  level_b : Int
  /-- The value of `as5600_get_position(&axis_a.encoder)`. -/
  pos_a : ℚ
  /-- The value of `as5600_get_position(&axis_b.encoder)`. -/
  pos_b : ℚ
  /-- The value read from `dir` while it is still uninitialised. -/
  indet_dir : Int
  /-- The value read from `rising_edge` while it is still uninitialised. -/
  indet_rising_edge : ℚ

/-- The variables of `homing_task` that live across loop passes, together
with the wrist that `params->wrist` points to. -/
structure task_t where
  state : homing_state_t
  last_logged_state : Int
  dir : Option Int
  rising_edge : Option ℚ
  falling_edge : Option ℚ
  wrist : wrist_t

/-- The integer nearest to `y`, the even one of the two when `y` lies half
way between them. -/
def round_half_even (y : ℚ) : ℤ :=
  if y - ⌊y⌋ < 1 / 2 then ⌊y⌋
  else if 1 / 2 < y - ⌊y⌋ then ⌊y⌋ + 1
  else if ⌊y⌋ % 2 = 0 then ⌊y⌋ else ⌊y⌋ + 1

/-- The exponent of the unit in the last place of `x` in the binary format
with `prec` significand bits and least normal exponent `emin`. -/
def ulp_exponent (prec : ℕ) (emin : ℤ) (x : ℚ) : ℤ :=
  max (Int.log 2 |x|) emin - ((prec : ℤ) - 1)

/-- IEEE 754 rounding to nearest, ties to even, into the binary format with
`prec` significand bits and least normal exponent `emin`. -/
def round_binary (prec : ℕ) (emin : ℤ) (x : ℚ) : ℚ :=
  (round_half_even (x / 2 ^ ulp_exponent prec emin x) : ℚ) * 2 ^ ulp_exponent prec emin x

/-- Rounding to a C `float` (binary32). -/
def to_float (x : ℚ) : ℚ := round_binary 24 (-126) x

/-- Rounding to a C `double` (binary64). -/
def to_double (x : ℚ) : ℚ := round_binary 53 (-1022) x

/-- The largest finite `float`, `(2^24 - 1) * 2^104`. -/
def float_max : ℚ := (2 ^ 24 - 1) * 2 ^ 104

/-- A rounded value is a finite `float`: the operation did not overflow. -/
def float_finite (x : ℚ) : Prop := |x| ≤ float_max

/-- The function `a_axis_endstop`: the pin level converted to `bool`. -/
def a_axis_endstop (i : inputs_t) : Bool :=
  i.level_a != 0

/-- The function `b_axis_endstop`: the negated pin level. -/
def b_axis_endstop (i : inputs_t) : Bool :=
  i.level_b == 0

/-- The function `as5600_get_position`, applied to the encoder of axis A
and of axis B during the pass whose inputs are `i`. -/
def as5600_get_position_a (i : inputs_t) : ℚ := i.pos_a

/-- The B-axis counterpart of `as5600_get_position_a`. -/
def as5600_get_position_b (i : inputs_t) : ℚ := i.pos_b

/-- The function `as5600_set_position`: the written value is logged. -/
def as5600_set_position (e : as5600_t) (v : ℚ) : as5600_t :=
  { e with set_log := v :: e.set_log }

/-- The function `reached_target_pos`, with the encoder reading `reading`:
`fabs(reading - axis->pos_ctrl) < POSITION_TOLERANCE`.  The subtraction is a
`float` operation; `fabs` and the comparison are exact. -/
def reached_target_pos (c : config_t) (reading : ℚ) (axis : axis_t) : Bool :=
  decide (|to_float (reading - axis.pos_ctrl)| < c.POSITION_TOLERANCE)

/-- The expression `(pos < 0) - (pos > 0)` of line 95. -/
def dir_of (pos : ℚ) : Int :=
  (if pos < 0 then 1 else 0) - (if pos > 0 then 1 else 0)

/-- The state of `homing_task` when it enters its loop (lines 39 to 45). -/
def homing_init (c : config_t) (w : wrist_t) : task_t :=
  { state := FINDING_A_AXIS_END_COARSE
    last_logged_state := -1
    dir := none
    rising_edge := none
    falling_edge := none
    wrist := { w with axis_a := { w.axis_a with speed_ctrl := c.COARSE_HOMING_SPEED } } }

/-- The `switch (state)` statement of `homing_task` (lines 59 to 147). -/
def homing_switch (c : config_t) (t : task_t) (i : inputs_t) : task_t :=
  match t.state with
  | FINDING_A_AXIS_END_COARSE =>
    if a_axis_endstop i then
      let coarse_pos := as5600_get_position_a i
      { t with
        wrist := { t.wrist with
          axis_a := { t.wrist.axis_a with
            speed_ctrl := 0
            pos_ctrl := to_float (to_double (coarse_pos - to_double (3 / 10))) } }
        state := BACKING_OFF_A_ENDSTOP }
    else t
  | BACKING_OFF_A_ENDSTOP =>
    if reached_target_pos c (as5600_get_position_a i) t.wrist.axis_a then
      { t with
        wrist := { t.wrist with
          axis_a := { t.wrist.axis_a with speed_ctrl := c.FINE_HOMING_SPEED } }
        state := FINDING_A_AXIS_END_FINE }
    else t
  | FINDING_A_AXIS_END_FINE =>
    if a_axis_endstop i then
      { t with
        wrist := { t.wrist with
          axis_a :=
            { encoder := as5600_set_position t.wrist.axis_a.encoder c.ENDSTOP_A_POSITION
              speed_ctrl := 0
              pos_ctrl := c.A_AXIS_MAX } }
        state := MOVING_TO_B_END }
    else t
  | MOVING_TO_B_END =>
    if reached_target_pos c (as5600_get_position_a i) t.wrist.axis_a then
      let pos := as5600_get_position_b i
      let dir := dir_of pos
      { t with
        dir := some dir
        wrist := { t.wrist with
          axis_b := { t.wrist.axis_b with
            pos_ctrl :=
              to_float (to_float (((-dir : Int) : ℚ) * to_float (1 / 5))
                - c.ENDSTOP_B_POSITION) } }
        state := MOVING_NEXT_TO_B_END_SWITCH }
    else t
  | MOVING_NEXT_TO_B_END_SWITCH =>
    if reached_target_pos c (as5600_get_position_b i) t.wrist.axis_b then
      { t with
        wrist := { t.wrist with
          axis_b := { t.wrist.axis_b with
            speed_ctrl := c.FINE_HOMING_SPEED * ((t.dir.getD i.indet_dir : Int) : ℚ) } }
        state := FINDING_B_AXIS_RISING_EDGE }
    else t
  | FINDING_B_AXIS_RISING_EDGE =>
    if b_axis_endstop i then
      { t with
        rising_edge := some (as5600_get_position_b i)
        state := FINDING_B_AXIS_FALLING_EDGE }
    else t
  | FINDING_B_AXIS_FALLING_EDGE =>
    if !b_axis_endstop i then
      let falling_edge := as5600_get_position_b i
      let calibrated :=
        to_float (to_float
            (to_float (falling_edge - t.rising_edge.getD i.indet_rising_edge) / 2)
          + c.ENDSTOP_B_POSITION)
      { t with
        falling_edge := some falling_edge
        wrist :=
          { axis_a := { t.wrist.axis_a with pos_ctrl := 0 }
            axis_b :=
              { encoder := as5600_set_position t.wrist.axis_b.encoder calibrated
                speed_ctrl := 0
                pos_ctrl := -(1 / 2) } }
        state := MOVING_TO_ZERO }
    else t
  | MOVING_TO_ZERO =>
    if reached_target_pos c (as5600_get_position_a i) t.wrist.axis_a &&
        reached_target_pos c (as5600_get_position_b i) t.wrist.axis_b then
      { t with state := FINISHED }
    else t
  | FINISHED => t

/-- The log check at the head of the loop body (lines 53 to 57); the
message itself is not modelled. -/
def log_state (t : task_t) : task_t :=
  if t.state.val ≠ t.last_logged_state then
    { t with last_logged_state := t.state.val }
  else t

/-- One pass of the loop body after the semaphore was taken (lines 53 to
147): the log check, then the switch. -/
def homing_pass (c : config_t) (t : task_t) (i : inputs_t) : task_t :=
  homing_switch c (log_state t) i

/-- The loop of `homing_task` over a finite sequence of triggers, one
record of inputs per trigger. -/
def homing_run (c : config_t) (t : task_t) : List inputs_t → task_t
  | [] => t
  | i :: rest => homing_run c (homing_pass c t i) rest

/-- The condition under which each state advances, as the transition table
of the specification lists it (`FINISHED` has none). -/
def transition_condition (c : config_t) (t : task_t) (i : inputs_t) : Bool :=
  match t.state with
  | FINDING_A_AXIS_END_COARSE => a_axis_endstop i
  | BACKING_OFF_A_ENDSTOP => reached_target_pos c (as5600_get_position_a i) t.wrist.axis_a
  | FINDING_A_AXIS_END_FINE => a_axis_endstop i
  | MOVING_TO_B_END => reached_target_pos c (as5600_get_position_a i) t.wrist.axis_a
  | MOVING_NEXT_TO_B_END_SWITCH =>
    reached_target_pos c (as5600_get_position_b i) t.wrist.axis_b
  | FINDING_B_AXIS_RISING_EDGE => b_axis_endstop i
  | FINDING_B_AXIS_FALLING_EDGE => !b_axis_endstop i
  | MOVING_TO_ZERO =>
    reached_target_pos c (as5600_get_position_a i) t.wrist.axis_a &&
      reached_target_pos c (as5600_get_position_b i) t.wrist.axis_b
  | FINISHED => false

/-- The encoder logs of a task in terms of its state, for a run that began
with the wrist `w`: A's encoder has been written once, with
`ENDSTOP_A_POSITION`, from `MOVING_TO_B_END` on, and B's encoder once from
`MOVING_TO_ZERO` on. -/
def log_inv (c : config_t) (w : wrist_t) (t : task_t) : Prop :=
  t.wrist.axis_a.encoder.set_log =
      (if 3 ≤ t.state.val then [c.ENDSTOP_A_POSITION] else []) ++ w.axis_a.encoder.set_log ∧
    (t.state.val < 7 → t.wrist.axis_b.encoder.set_log = w.axis_b.encoder.set_log) ∧
    (7 ≤ t.state.val →
      ∃ v : ℚ, t.wrist.axis_b.encoder.set_log = v :: w.axis_b.encoder.set_log)

/-- Axis A's commanded speed in terms of the state: the coarse speed while
seeking coarsely, the fine speed while seeking finely, zero otherwise. -/
def a_speed_inv (c : config_t) (t : task_t) : Prop :=
  t.wrist.axis_a.speed_ctrl =
    if t.state = FINDING_A_AXIS_END_COARSE then c.COARSE_HOMING_SPEED
    else if t.state = FINDING_A_AXIS_END_FINE then c.FINE_HOMING_SPEED
    else 0

/-- The locals in terms of the state: `dir` has been assigned from
`MOVING_NEXT_TO_B_END_SWITCH` on, `rising_edge` from
`FINDING_B_AXIS_FALLING_EDGE` on, and while an edge of the B endstop is being
sought axis B is commanded the speed `FINE_HOMING_SPEED * dir`. -/
def locals_inv (c : config_t) (t : task_t) : Prop :=
  (4 ≤ t.state.val → ∃ d : Int, t.dir = some d) ∧
    (6 ≤ t.state.val → ∃ r : ℚ, t.rising_edge = some r) ∧
    (t.state = FINDING_B_AXIS_RISING_EDGE ∨ t.state = FINDING_B_AXIS_FALLING_EDGE →
      ∃ d : Int, t.dir = some d ∧
        t.wrist.axis_b.speed_ctrl = c.FINE_HOMING_SPEED * ((d : Int) : ℚ))

/-! ## Sample data used by the worked instances -/

/-- Constants with tolerance `0.01` (the `double` nearest to it) and
endstop-B reference `1.0`. -/
def sample_config : config_t :=
  { POSITION_TOLERANCE := 5764607523034235 / 576460752303423488
    COARSE_HOMING_SPEED := 2
    FINE_HOMING_SPEED := 1 / 2
    ENDSTOP_A_POSITION := 3
    A_AXIS_MAX := 4
    ENDSTOP_B_POSITION := 1 }

/-- An axis with an untouched encoder and the given commanded values. -/
def sample_axis (pos speed : ℚ) : axis_t :=
  { encoder := { set_log := [] }, pos_ctrl := pos, speed_ctrl := speed }

/-- A wrist whose axes are commanded to `5` and `7`, speeds `11` and `13`. -/
def sample_wrist : wrist_t :=
  { axis_a := sample_axis 5 11, axis_b := sample_axis 7 13 }

/-- A task in state `s` over `sample_wrist`, with the given locals. -/
def sample_task (s : homing_state_t) (dir : Option Int) (rising : Option ℚ) : task_t :=
  { state := s, last_logged_state := s.val, dir := dir, rising_edge := rising,
    falling_edge := none, wrist := sample_wrist }

/-- Inputs with the given pin levels and encoder readings. -/
def sample_inputs (la lb : Int) (pa pb : ℚ) : inputs_t :=
  { level_a := la, level_b := lb, pos_a := pa, pos_b := pb,
    indet_dir := 99, indet_rising_edge := 77 }

/-- Inputs of a complete homing run over `sample_wrist`: one trigger per
state, each meeting the transition condition of the state it arrives in. -/
def sample_triggers : List inputs_t :=
  [sample_inputs 1 1 5 (-2), sample_inputs 0 1 (4928307 / 1048576) (-2),
    sample_inputs 1 1 (9 / 2) (-2), sample_inputs 0 1 4 (-2),
    sample_inputs 0 1 4 (-5033165 / 4194304), sample_inputs 0 0 4 (-1),
    sample_inputs 0 1 4 (-3 / 4), sample_inputs 0 1 0 (-1 / 2)]

/-! ## Facts about rounding -/

theorem round_half_even_error (y : ℚ) : |((round_half_even y : ℤ) : ℚ) - y| ≤ 1 / 2 := by
  have h0 : 0 ≤ y - ⌊y⌋ := sub_nonneg.mpr (Int.floor_le y)
  have h1 : y - ⌊y⌋ < 1 := by
    have := Int.lt_floor_add_one y
    linarith
  unfold round_half_even
  split_ifs with ha hb hc
  · rw [abs_le]; constructor <;> linarith
  · rw [abs_le]; push_cast; constructor <;> linarith
  · rw [abs_le]; constructor <;> linarith
  · rw [abs_le]; push_cast; constructor <;> linarith

theorem round_half_even_eq (y : ℚ) (n : ℤ) (h : |y - n| < 1 / 2) : round_half_even y = n := by
  rw [abs_lt] at h
  have h0 : (⌊y⌋ : ℚ) ≤ y := Int.floor_le y
  have h1 : y < ⌊y⌋ + 1 := Int.lt_floor_add_one y
  by_cases hn : y < n
  · -- floor is n - 1, fractional part above one half
    have hf : ⌊y⌋ = n - 1 := by
      rw [Int.floor_eq_iff]; push_cast; constructor <;> linarith
    unfold round_half_even
    rw [hf]
    push_cast
    have h2 : ¬ (y - ((n : ℚ) - 1) < 1 / 2) := by linarith
    have h3 : 1 / 2 < y - ((n : ℚ) - 1) := by linarith
    simp only [h2, h3, if_false, if_true]
    ring
  · have hf : ⌊y⌋ = n := by
      rw [Int.floor_eq_iff]; constructor <;> linarith
    unfold round_half_even
    rw [hf]
    have h2 : y - (n : ℚ) < 1 / 2 := by linarith
    simp only [h2, if_true]

theorem round_half_even_int (n : ℤ) : round_half_even (n : ℚ) = n :=
  round_half_even_eq _ n (by simp)

theorem log_abs_eq (x : ℚ) (e : ℤ) (h1 : (2 : ℚ) ^ e ≤ |x|) (h2 : |x| < (2 : ℚ) ^ (e + 1)) :
    Int.log 2 |x| = e := by
  have hpos : 0 < |x| := lt_of_lt_of_le (zpow_pos (by norm_num) e) h1
  have ha : e ≤ Int.log 2 |x| := by
    have := (Int.zpow_le_iff_le_log (b := 2) (by norm_num) hpos (x := e)).mp (by exact_mod_cast h1)
    exact this
  have hb : Int.log 2 |x| < e + 1 := by
    have := (Int.lt_zpow_iff_log_lt (b := 2) (by norm_num) hpos (x := e + 1)).mp
      (by exact_mod_cast h2)
    exact this
  omega

theorem round_binary_eq (prec : ℕ) (emin : ℤ) (x : ℚ) (e n : ℤ)
    (h1 : (2 : ℚ) ^ e ≤ |x|) (h2 : |x| < (2 : ℚ) ^ (e + 1))
    (hn : |x / 2 ^ (max e emin - ((prec : ℤ) - 1)) - n| < 1 / 2) :
    round_binary prec emin x = n * 2 ^ (max e emin - ((prec : ℤ) - 1)) := by
  unfold round_binary ulp_exponent
  rw [log_abs_eq x e h1 h2, round_half_even_eq _ n hn]

theorem round_binary_zero (prec : ℕ) (emin : ℤ) : round_binary prec emin 0 = 0 := by
  unfold round_binary
  simp [round_half_even]

theorem round_binary_error (prec : ℕ) (emin : ℤ) (x : ℚ) :
    |round_binary prec emin x - x| ≤ 2 ^ ulp_exponent prec emin x / 2 := by
  unfold round_binary
  set q := ulp_exponent prec emin x
  have hq : (0 : ℚ) < 2 ^ q := zpow_pos (by norm_num) q
  have h := round_half_even_error (x / 2 ^ q)
  have : (round_half_even (x / 2 ^ q) : ℚ) * 2 ^ q - x =
      ((round_half_even (x / 2 ^ q) : ℚ) - x / 2 ^ q) * 2 ^ q := by
    field_simp
  rw [this, abs_mul, abs_of_pos hq]
  calc |(round_half_even (x / 2 ^ q) : ℚ) - x / 2 ^ q| * 2 ^ q ≤ 1 / 2 * 2 ^ q :=
        mul_le_mul_of_nonneg_right h hq.le
    _ = 2 ^ q / 2 := by ring

theorem round_binary_rel_error (prec : ℕ) (emin : ℤ) (x : ℚ) (hx : (2 : ℚ) ^ emin ≤ |x|) :
    |round_binary prec emin x - x| ≤ |x| * 2 ^ (-(prec : ℤ)) := by
  have hpos : 0 < |x| := lt_of_lt_of_le (zpow_pos (by norm_num) emin) hx
  have he : emin ≤ Int.log 2 |x| :=
    (Int.zpow_le_iff_le_log (b := 2) (by norm_num) hpos (x := emin)).mp (by exact_mod_cast hx)
  have hl : ((2 : ℚ) ^ Int.log 2 |x|) ≤ |x| := by
    have := Int.zpow_log_le_self (b := 2) (by norm_num) hpos
    exact_mod_cast this
  have h := round_binary_error prec emin x
  have hq : ulp_exponent prec emin x = Int.log 2 |x| + (-(prec : ℤ) + 1) := by
    unfold ulp_exponent
    rw [max_eq_left he]; ring
  rw [hq, zpow_add₀ (by norm_num : (2 : ℚ) ≠ 0), zpow_add₀ (by norm_num : (2 : ℚ) ≠ 0)] at h
  have hp : (0 : ℚ) < 2 ^ (-(prec : ℤ)) := zpow_pos (by norm_num) _
  calc |round_binary prec emin x - x| ≤ 2 ^ Int.log 2 |x| * (2 ^ (-(prec : ℤ)) * 2 ^ (1 : ℤ)) / 2 := h
    _ = 2 ^ Int.log 2 |x| * 2 ^ (-(prec : ℤ)) := by rw [zpow_one]; ring
    _ ≤ |x| * 2 ^ (-(prec : ℤ)) := mul_le_mul_of_nonneg_right hl hp.le

theorem round_binary_of_representable (prec : ℕ) (emin : ℤ) (m k : ℤ)
    (hm : |m| < 2 ^ prec) (hk : emin - ((prec : ℤ) - 1) ≤ k) :
    round_binary prec emin ((m : ℚ) * 2 ^ k) = (m : ℚ) * 2 ^ k := by
  by_cases hm0 : m = 0
  · subst hm0; simp [round_binary_zero]
  have h2 : (2 : ℚ) ≠ 0 := by norm_num
  have hxpos : 0 < |(m : ℚ) * 2 ^ k| := by
    rw [abs_pos]; exact mul_ne_zero (by exact_mod_cast hm0) (zpow_ne_zero _ h2)
  -- the exponent of the last place is at most k
  have hlog : Int.log 2 |(m : ℚ) * 2 ^ k| < (prec : ℤ) + k := by
    rw [← Int.lt_zpow_iff_log_lt (by norm_num) hxpos]
    rw [abs_mul, abs_of_pos (zpow_pos (by norm_num : (0 : ℚ) < 2) k)]
    push_cast
    rw [zpow_add₀ h2]
    apply mul_lt_mul_of_pos_right _ (zpow_pos (by norm_num) k)
    rw [zpow_natCast]
    exact_mod_cast hm
  have hq : ulp_exponent prec emin ((m : ℚ) * 2 ^ k) ≤ k := by
    unfold ulp_exponent
    rcases max_cases (Int.log 2 |(m : ℚ) * 2 ^ k|) emin with ⟨h, _⟩ | ⟨h, _⟩ <;> rw [h] <;> omega
  unfold round_binary
  set q := ulp_exponent prec emin ((m : ℚ) * 2 ^ k)
  obtain ⟨d, hd⟩ : ∃ d : ℕ, k = q + d := ⟨(k - q).toNat, by omega⟩
  have hy : (m : ℚ) * 2 ^ k / 2 ^ q = ((m * 2 ^ d : ℤ) : ℚ) := by
    rw [hd, zpow_add₀ h2, zpow_natCast]
    push_cast
    field_simp
    ring
  rw [hy, round_half_even_int, hd, zpow_add₀ h2, zpow_natCast]
  push_cast
  ring

theorem round_half_even_neg (y : ℚ) : round_half_even (-y) = -round_half_even y := by
  by_cases hy : (⌊y⌋ : ℚ) = y
  · rw [← hy, ← Int.cast_neg, round_half_even_int, round_half_even_int]
  · have h0 : (⌊y⌋ : ℚ) < y := lt_of_le_of_ne (Int.floor_le y) hy
    have h1 : y < ⌊y⌋ + 1 := Int.lt_floor_add_one y
    have hf : ⌊-y⌋ = -⌊y⌋ - 1 := by
      rw [Int.floor_eq_iff]; push_cast; constructor <;> linarith
    unfold round_half_even
    rw [hf]
    push_cast
    by_cases ha : y - ⌊y⌋ < 1 / 2
    · have hb : ¬ (-y - (-(⌊y⌋ : ℚ) - 1) < 1 / 2) := by linarith
      have hc : 1 / 2 < -y - (-(⌊y⌋ : ℚ) - 1) := by linarith
      simp only [ha, hb, hc, if_true, if_false]
      ring
    · by_cases hb : 1 / 2 < y - ⌊y⌋
      · have hc : -y - (-(⌊y⌋ : ℚ) - 1) < 1 / 2 := by linarith
        simp only [ha, hb, hc, if_true, if_false]
        ring
      · have hc : ¬ (-y - (-(⌊y⌋ : ℚ) - 1) < 1 / 2) := by linarith
        have hd : ¬ (1 / 2 < -y - (-(⌊y⌋ : ℚ) - 1)) := by linarith
        simp only [ha, hb, hc, hd, if_false]
        by_cases he : ⌊y⌋ % 2 = 0
        · have : ¬ ((-⌊y⌋ - 1) % 2 = 0) := by omega
          simp only [he, this, if_true, if_false]
          ring
        · have : (-⌊y⌋ - 1) % 2 = 0 := by omega
          simp only [he, this, if_true, if_false]
          ring

theorem round_binary_neg (prec : ℕ) (emin : ℤ) (x : ℚ) :
    round_binary prec emin (-x) = -round_binary prec emin x := by
  unfold round_binary ulp_exponent
  rw [abs_neg, neg_div, round_half_even_neg]
  push_cast
  ring

theorem to_float_error (x : ℚ) : |to_float x - x| ≤ |x| * 2 ^ (-24 : ℤ) + 2 ^ (-150 : ℤ) := by
  by_cases hx : x = 0
  · subst hx
    simp [to_float, round_binary_zero]
    positivity
  have hpos : 0 < |x| := abs_pos.mpr hx
  have h := round_binary_error 24 (-126) x
  have hl : ((2 : ℚ) ^ Int.log 2 |x|) ≤ |x| := by
    have := Int.zpow_log_le_self (b := 2) (by norm_num) hpos
    exact_mod_cast this
  have h2 : (2 : ℚ) ≠ 0 := by norm_num
  unfold to_float
  refine le_trans h ?_
  unfold ulp_exponent
  rcases max_cases (Int.log 2 |x|) (-126) with ⟨hm, _⟩ | ⟨hm, _⟩
  · rw [hm]
    have : (2 : ℚ) ^ (Int.log 2 |x| - (((24 : ℕ) : ℤ) - 1)) / 2 =
        2 ^ Int.log 2 |x| * 2 ^ (-24 : ℤ) := by
      rw [zpow_sub₀ h2]; norm_num; ring
    rw [this]
    have hp : (0 : ℚ) ≤ 2 ^ (-24 : ℤ) := by positivity
    have hq : (0 : ℚ) ≤ 2 ^ (-150 : ℤ) := by positivity
    have := mul_le_mul_of_nonneg_right hl hp
    linarith
  · rw [hm]
    have : (2 : ℚ) ^ ((-126 : ℤ) - (((24 : ℕ) : ℤ) - 1)) / 2 = 2 ^ (-150 : ℤ) := by
      norm_num
    rw [this]
    have : 0 ≤ |x| * 2 ^ (-24 : ℤ) := by positivity
    linarith

theorem to_float_zero : to_float 0 = 0 := round_binary_zero 24 (-126)

theorem to_float_neg (x : ℚ) : to_float (-x) = -to_float x := round_binary_neg 24 (-126) x

theorem to_float_of_representable (m k : ℤ) (hm : |m| < 2 ^ 24) (hk : -149 ≤ k) :
    to_float ((m : ℚ) * 2 ^ k) = (m : ℚ) * 2 ^ k :=
  round_binary_of_representable 24 (-126) m k hm (by norm_num; exact hk)

theorem to_float_intCast (m : ℤ) (hm : |m| < 2 ^ 24) : to_float (m : ℚ) = (m : ℚ) := by
  have := to_float_of_representable m 0 hm (by norm_num)
  simpa using this

theorem to_float_one_fifth : to_float (1 / 5) = 13421773 / 67108864 := by
  unfold to_float
  rw [round_binary_eq 24 (-126) (1 / 5) (-3) 13421773 (by norm_num [le_abs])
    (by norm_num [abs_lt]) (by norm_num [abs_lt])]
  norm_num

theorem to_double_three_tenths :
    to_double (3 / 10) = 5404319552844595 / 18014398509481984 := by
  unfold to_double
  rw [round_binary_eq 53 (-1022) (3 / 10) (-2) 5404319552844595 (by norm_num [le_abs])
    (by norm_num [abs_lt]) (by norm_num [abs_lt])]
  norm_num

theorem dir_of_cases (p : ℚ) :
    dir_of p = if p < 0 then 1 else if 0 < p then -1 else 0 := by
  unfold dir_of
  rcases lt_trichotomy p 0 with h | h | h
  · simp [h, not_lt.mpr h.le]
  · simp [h]
  · simp [h, not_lt.mpr h.le]

theorem to_float_dir_mul (p : ℚ) :
    to_float (((-dir_of p : Int) : ℚ) * to_float (1 / 5)) =
      -((dir_of p : Int) : ℚ) * (13421773 / 67108864) := by
  rw [to_float_one_fifth, dir_of_cases]
  have hrep : to_float (13421773 / 67108864) = 13421773 / 67108864 := by
    have := to_float_of_representable 13421773 (-26) (by norm_num) (by norm_num)
    norm_num at this
    exact this
  split_ifs
  · have : (((-(1 : Int) : Int) : ℚ)) * (13421773 / 67108864) = -(13421773 / 67108864) := by
      norm_num
    rw [this, to_float_neg, hrep]; norm_num
  · have : (((-(-1 : Int) : Int) : ℚ)) * (13421773 / 67108864) = 13421773 / 67108864 := by
      norm_num
    rw [this, hrep]; norm_num
  · simp [to_float_zero]

theorem to_double_five_minus_three_tenths :
    to_double (84667672994565325 / 18014398509481984) =
      5291729562160333 / 1125899906842624 := by
  unfold to_double
  rw [round_binary_eq 53 (-1022) (84667672994565325 / 18014398509481984) 2 5291729562160333
    (by norm_num [le_abs]) (by norm_num [abs_lt]) (by norm_num [abs_lt])]
  norm_num

theorem to_float_four_point_seven :
    to_float (5291729562160333 / 1125899906842624) = 4928307 / 1048576 := by
  unfold to_float
  rw [round_binary_eq 24 (-126) (5291729562160333 / 1125899906842624) 2 9856614
    (by norm_num [le_abs]) (by norm_num [abs_lt]) (by norm_num [abs_lt])]
  norm_num

theorem coarse_target_at_five :
    to_float (to_double (5 - to_double (3 / 10))) = 4928307 / 1048576 := by
  rw [to_double_three_tenths]
  norm_num [to_double_five_minus_three_tenths, to_float_four_point_seven]

theorem to_float_one_point_two :
    to_float (80530637 / 67108864) = 5033165 / 4194304 := by
  unfold to_float
  rw [round_binary_eq 24 (-126) (80530637 / 67108864) 0 10066330
    (by norm_num [le_abs]) (by norm_num [abs_lt]) (by norm_num [abs_lt])]
  norm_num

theorem approach_target_at_minus_two :
    to_float (to_float (((-dir_of (-2) : Int) : ℚ) * to_float (1 / 5)) - 1) =
      -(5033165 / 4194304) := by
  rw [to_float_dir_mul]
  norm_num [dir_of, to_float_neg, to_float_one_point_two]

theorem calibrated_at_sample_edges :
    to_float (to_float (to_float (1 / 4) / 2) + 1) = 9 / 8 := by
  have h1 : to_float (1 / 4) = 1 / 4 := by
    have := to_float_of_representable 1 (-2) (by norm_num) (by norm_num)
    norm_num at this
    exact this
  have h2 : to_float (1 / 8) = 1 / 8 := by
    have := to_float_of_representable 1 (-3) (by norm_num) (by norm_num)
    norm_num at this
    exact this
  have h3 : to_float (9 / 8) = 9 / 8 := by
    have := to_float_of_representable 9 (-3) (by norm_num) (by norm_num)
    norm_num at this
    exact this
  norm_num [h1, h2, h3]

theorem to_float_approach_target : to_float (5033165 / 4194304) = 5033165 / 4194304 := by
  have := to_float_of_representable 5033165 (-22) (by norm_num) (by norm_num)
  norm_num at this
  exact this

theorem sample_wait_then_at_target :
    homing_run sample_config (sample_task MOVING_TO_B_END none none)
        [sample_inputs 0 1 5 (-2), sample_inputs 0 1 5 0] =
      { sample_task MOVING_NEXT_TO_B_END_SWITCH (some 1) none with
        wrist :=
          { axis_a := sample_axis 5 11, axis_b := sample_axis (-(5033165 / 4194304)) 13 } } := by
  have d2 : dir_of (-2) = 1 := by norm_num [dir_of]
  simp only [homing_run, homing_pass, log_state, homing_switch, sample_task, sample_inputs,
    sample_wrist, sample_axis, sample_config, reached_target_pos, homing_state_t.val,
    as5600_get_position_a, as5600_get_position_b, approach_target_at_minus_two]
  norm_num [to_float_zero, to_float_approach_target, d2, le_abs]

theorem to_float_decimals :
    to_float (17 / 5) = 7130317 / 2097152 ∧ to_float (6 / 5) = 5033165 / 4194304 ∧
      to_float (47 / 10) = 4928307 / 1048576 ∧ to_float (4 / 5) = 13421773 / 16777216 ∧
      to_float (4995 / 1000) = 5237637 / 1048576 ∧
      to_float (498 / 100) = 10443817 / 2097152 := by
  refine ⟨?_, ?_, ?_, ?_, ?_, ?_⟩
  · unfold to_float
    rw [round_binary_eq 24 (-126) (17 / 5) 1 14260634 (by norm_num [le_abs])
      (by norm_num [abs_lt]) (by norm_num [abs_lt])]
    norm_num
  · unfold to_float
    rw [round_binary_eq 24 (-126) (6 / 5) 0 10066330 (by norm_num [le_abs])
      (by norm_num [abs_lt]) (by norm_num [abs_lt])]
    norm_num
  · unfold to_float
    rw [round_binary_eq 24 (-126) (47 / 10) 2 9856614 (by norm_num [le_abs])
      (by norm_num [abs_lt]) (by norm_num [abs_lt])]
    norm_num
  · unfold to_float
    rw [round_binary_eq 24 (-126) (4 / 5) (-1) 13421773 (by norm_num [le_abs])
      (by norm_num [abs_lt]) (by norm_num [abs_lt])]
    norm_num
  · unfold to_float
    rw [round_binary_eq 24 (-126) (4995 / 1000) 2 10475274 (by norm_num [le_abs])
      (by norm_num [abs_lt]) (by norm_num [abs_lt])]
    norm_num
  · unfold to_float
    rw [round_binary_eq 24 (-126) (498 / 100) 2 10443817 (by norm_num [le_abs])
      (by norm_num [abs_lt]) (by norm_num [abs_lt])]
    norm_num

theorem to_double_one_hundredth :
    to_double (1 / 100) = 5764607523034235 / 576460752303423488 := by
  unfold to_double
  rw [round_binary_eq 53 (-1022) (1 / 100) (-7) 5764607523034235 (by norm_num [le_abs])
    (by norm_num [abs_lt]) (by norm_num [abs_lt])]
  norm_num

/-! ## Basic facts about the switch -/

theorem switch_of_condition_false (c : config_t) (t : task_t) (i : inputs_t)
    (h : transition_condition c t i = false) : homing_switch c t i = t := by
  unfold transition_condition at h
  unfold homing_switch
  split <;> simp_all

theorem switch_finished (c : config_t) (t : task_t) (i : inputs_t)
    (h : t.state = FINISHED) : homing_switch c t i = t := by
  unfold homing_switch
  simp [h]

@[simp] theorem log_state_state (t : task_t) : (log_state t).state = t.state := by
  unfold log_state; split <;> rfl

@[simp] theorem log_state_wrist (t : task_t) : (log_state t).wrist = t.wrist := by
  unfold log_state; split <;> rfl

@[simp] theorem log_state_dir (t : task_t) : (log_state t).dir = t.dir := by
  unfold log_state; split <;> rfl

@[simp] theorem log_state_rising_edge (t : task_t) :
    (log_state t).rising_edge = t.rising_edge := by
  unfold log_state; split <;> rfl

@[simp] theorem log_state_falling_edge (t : task_t) :
    (log_state t).falling_edge = t.falling_edge := by
  unfold log_state; split <;> rfl

theorem pass_finished (c : config_t) (t : task_t) (i : inputs_t)
    (h : t.state = FINISHED) : homing_pass c t i = log_state t := by
  unfold homing_pass
  exact switch_finished c _ i (by simp [h])

theorem run_finished (c : config_t) (is : List inputs_t) :
    ∀ t : task_t, t.state = FINISHED →
      (homing_run c t is).state = FINISHED ∧ (homing_run c t is).wrist = t.wrist ∧
        (homing_run c t is).dir = t.dir ∧
        (homing_run c t is).rising_edge = t.rising_edge ∧
        (homing_run c t is).falling_edge = t.falling_edge := by
  induction is with
  | nil => intro t h; exact ⟨h, rfl, rfl, rfl, rfl⟩
  | cons i rest ih =>
    intro t h
    simp only [homing_run]
    rw [pass_finished c t i h]
    have := ih (log_state t) (by simp [h])
    simpa using this

theorem switch_dir_unchanged (c : config_t) (t : task_t) (i : inputs_t)
    (h : t.state ≠ MOVING_TO_B_END) : (homing_switch c t i).dir = t.dir := by
  unfold homing_switch
  split <;> rename_i hs <;> (try split) <;> first | rfl | exact absurd hs h

theorem switch_state_val_le (c : config_t) (t : task_t) (i : inputs_t) :
    t.state.val ≤ (homing_switch c t i).state.val := by
  unfold homing_switch
  split <;> rename_i h <;> (try split) <;> simp [h, homing_state_t.val]

theorem run_dir_unchanged (c : config_t) (is : List inputs_t) :
    ∀ t : task_t, 4 ≤ t.state.val →
      (homing_run c t is).dir = t.dir ∧ 4 ≤ (homing_run c t is).state.val := by
  induction is with
  | nil => intro t h; exact ⟨rfl, h⟩
  | cons i rest ih =>
    intro t h
    simp only [homing_run]
    have hne : (log_state t).state ≠ MOVING_TO_B_END := by
      intro hc
      rw [log_state_state] at hc
      rw [hc] at h
      simp [homing_state_t.val] at h
    have h1 : (homing_pass c t i).dir = t.dir := by
      unfold homing_pass
      rw [switch_dir_unchanged c _ i hne, log_state_dir]
    have h2 : 4 ≤ (homing_pass c t i).state.val := by
      unfold homing_pass
      have := switch_state_val_le c (log_state t) i
      rw [log_state_state] at this
      omega
    obtain ⟨h3, h4⟩ := ih (homing_pass c t i) h2
    exact ⟨h3.trans h1, h4⟩

theorem pass_of_condition_false (c : config_t) (t : task_t) (i : inputs_t)
    (h : transition_condition c t i = false) : homing_pass c t i = log_state t := by
  unfold homing_pass
  apply switch_of_condition_false
  unfold transition_condition at h ⊢
  simpa using h

theorem run_stalls (c : config_t) (is : List inputs_t) :
    ∀ t : task_t, (∀ i ∈ is, ∀ u : task_t, u.state = t.state → u.wrist = t.wrist →
        transition_condition c u i = false) →
      (homing_run c t is).state = t.state ∧ (homing_run c t is).wrist = t.wrist := by
  induction is with
  | nil => intro t _; exact ⟨rfl, rfl⟩
  | cons i rest ih =>
    intro t h
    simp only [homing_run]
    rw [pass_of_condition_false c t i (h i (List.mem_cons_self _ _) t rfl rfl)]
    have := ih (log_state t) (fun j hj u hu hw =>
      h j (List.mem_cons_of_mem _ hj) u (by simpa using hu) (by simpa using hw))
    simpa using this

theorem run_preserves (c : config_t) (P : task_t → Prop)
    (hlog : ∀ t, P t → P (log_state t))
    (hsw : ∀ t i, P t → P (homing_switch c t i)) :
    ∀ (is : List inputs_t) (t : task_t), P t → P (homing_run c t is) := by
  intro is
  induction is with
  | nil => intro t h; exact h
  | cons i rest ih =>
    intro t h
    simp only [homing_run]
    exact ih _ (hsw _ i (hlog t h))

theorem log_inv_switch (c : config_t) (w : wrist_t) (t : task_t) (i : inputs_t)
    (h : log_inv c w t) : log_inv c w (homing_switch c t i) := by
  unfold log_inv at h ⊢
  unfold homing_switch
  split <;> rename_i hs <;> (try split) <;>
    simp_all [homing_state_t.val, as5600_set_position]

theorem log_inv_run (c : config_t) (w : wrist_t) (is : List inputs_t) :
    log_inv c w (homing_run c (homing_init c w) is) := by
  apply run_preserves c (log_inv c w)
  · intro t h
    unfold log_inv at h ⊢
    simpa using h
  · intro t i h
    exact log_inv_switch c w t i h
  · unfold log_inv homing_init
    simp [homing_state_t.val]

theorem a_speed_inv_run (c : config_t) (w : wrist_t) (is : List inputs_t) :
    a_speed_inv c (homing_run c (homing_init c w) is) := by
  apply run_preserves c (a_speed_inv c)
  · intro t h
    unfold a_speed_inv at h ⊢
    simpa using h
  · intro t i h
    unfold a_speed_inv at h ⊢
    unfold homing_switch
    split <;> rename_i hs <;> (try split) <;> simp_all
  · unfold a_speed_inv homing_init
    simp

theorem locals_inv_run (c : config_t) (w : wrist_t) (is : List inputs_t) :
    locals_inv c (homing_run c (homing_init c w) is) := by
  apply run_preserves c (locals_inv c)
  · intro t h
    unfold locals_inv at h ⊢
    simpa using h
  · intro t i h
    unfold locals_inv at h ⊢
    unfold homing_switch
    split <;> rename_i hs <;> (try split) <;> simp_all [homing_state_t.val]
    obtain ⟨d, hd⟩ := h
    exact ⟨d, hd, Or.inl (by simp [hd])⟩
  · unfold locals_inv homing_init
    simp [homing_state_t.val]

theorem val_injective (s1 s2 : homing_state_t) (h : s1.val = s2.val) : s1 = s2 := by
  cases s1 <;> cases s2 <;> simp [homing_state_t.val] at h ⊢

theorem switch_eq_of_state_eq (c : config_t) (t : task_t) (i : inputs_t)
    (h : (homing_switch c t i).state = t.state) : homing_switch c t i = t := by
  unfold homing_switch at h ⊢
  split <;> rename_i hs <;> (try split) <;> simp_all

theorem run_state_val_le (c : config_t) (is : List inputs_t) :
    ∀ t : task_t, t.state.val ≤ (homing_run c t is).state.val := by
  induction is with
  | nil => intro t; exact le_refl _
  | cons i rest ih =>
    intro t
    simp only [homing_run]
    have h1 := switch_state_val_le c (log_state t) i
    rw [log_state_state] at h1
    exact le_trans h1 (ih (homing_pass c t i))

theorem run_wrist_of_state_eq (c : config_t) (is : List inputs_t) :
    ∀ t : task_t, (homing_run c t is).state = t.state →
      (homing_run c t is).wrist = t.wrist ∧ (homing_run c t is).dir = t.dir := by
  induction is with
  | nil => intro t _; exact ⟨rfl, rfl⟩
  | cons i rest ih =>
    intro t h
    simp only [homing_run] at h ⊢
    have h1 := switch_state_val_le c (log_state t) i
    rw [log_state_state] at h1
    have h2 := run_state_val_le c rest (homing_pass c t i)
    rw [h] at h2
    have h3 : (homing_switch c (log_state t) i).state = (log_state t).state := by
      rw [log_state_state]
      exact val_injective _ _ (le_antisymm h2 h1)
    have h4 : homing_pass c t i = log_state t := switch_eq_of_state_eq c _ i h3
    rw [h4] at h ⊢
    have := ih (log_state t) (by simpa using h)
    simpa using this

theorem sample_run_finishes :
    (homing_run sample_config (homing_init sample_config sample_wrist) sample_triggers).state =
        FINISHED ∧
      (homing_run sample_config (homing_init sample_config sample_wrist)
        sample_triggers).wrist.axis_a.encoder.set_log = [3] ∧
      (homing_run sample_config (homing_init sample_config sample_wrist)
        sample_triggers).wrist.axis_b.encoder.set_log = [9 / 8] ∧
      (homing_run sample_config (homing_init sample_config sample_wrist)
        sample_triggers).dir = some 1 ∧
      (homing_run sample_config (homing_init sample_config sample_wrist)
        sample_triggers).rising_edge = some (-1) := by
  have e1 := coarse_target_at_five
  have e2 := approach_target_at_minus_two
  have e3 := calibrated_at_sample_edges
  have d2 : dir_of (-2) = 1 := by norm_num [dir_of]
  simp only [sample_triggers, homing_run, homing_pass, log_state, homing_switch, homing_init,
    sample_inputs, sample_wrist, sample_axis, sample_config, reached_target_pos,
    homing_state_t.val, a_axis_endstop, b_axis_endstop, as5600_get_position_a,
    as5600_get_position_b, as5600_set_position, e1, e2, e3, Option.getD_some]
  norm_num [to_float_zero, d2, e3]

/-! ## The claims -/

/-- C1: one evaluation of the switch leaves the state where it was or moves
it to the state whose enumeration value is one larger; it never moves back
and never skips a state.  The same holds for a whole pass of the loop body,
so a trigger causes at most one transition. -/
theorem switch_state_same_or_successor (c : config_t) (t : task_t) (i : inputs_t) :
    ((homing_switch c t i).state = t.state ∨
        (homing_switch c t i).state.val = t.state.val + 1) ∧
      ((homing_pass c t i).state = t.state ∨
        (homing_pass c t i).state.val = t.state.val + 1) := by
  have key : ∀ u : task_t, (homing_switch c u i).state = u.state ∨
      (homing_switch c u i).state.val = u.state.val + 1 := by
    intro u
    unfold homing_switch
    split <;> rename_i h <;> (try split) <;> simp [h, homing_state_t.val]
  refine ⟨key t, ?_⟩
  have := key (log_state t)
  rw [log_state_state] at this
  exact this

/-- C2: in every state other than `FINISHED`, an evaluation whose transition
condition is false leaves the state and the four commanded values unchanged. -/
theorem switch_frame_when_condition_false (c : config_t) (t : task_t) (i : inputs_t)
    (hs : t.state ≠ FINISHED) (h : transition_condition c t i = false) :
    (homing_switch c t i).state = t.state ∧
      (homing_switch c t i).wrist.axis_a.pos_ctrl = t.wrist.axis_a.pos_ctrl ∧
      (homing_switch c t i).wrist.axis_a.speed_ctrl = t.wrist.axis_a.speed_ctrl ∧
      (homing_switch c t i).wrist.axis_b.pos_ctrl = t.wrist.axis_b.pos_ctrl ∧
      (homing_switch c t i).wrist.axis_b.speed_ctrl = t.wrist.axis_b.speed_ctrl := by
  have _ := hs
  rw [switch_of_condition_false c t i h]
  exact ⟨rfl, rfl, rfl, rfl, rfl⟩

theorem switch_frame_when_condition_false_witness :
    BACKING_OFF_A_ENDSTOP ≠ FINISHED ∧
      transition_condition sample_config (sample_task BACKING_OFF_A_ENDSTOP none none)
        (sample_inputs 1 0 0 0) = false ∧
      (homing_switch sample_config (sample_task BACKING_OFF_A_ENDSTOP none none)
        (sample_inputs 1 0 0 0)).state = BACKING_OFF_A_ENDSTOP ∧
      (homing_switch sample_config (sample_task BACKING_OFF_A_ENDSTOP none none)
        (sample_inputs 1 0 0 0)).wrist.axis_a.pos_ctrl = 5 ∧
      (homing_switch sample_config (sample_task BACKING_OFF_A_ENDSTOP none none)
        (sample_inputs 1 0 0 0)).wrist.axis_a.speed_ctrl = 11 ∧
      (homing_switch sample_config (sample_task BACKING_OFF_A_ENDSTOP none none)
        (sample_inputs 1 0 0 0)).wrist.axis_b.pos_ctrl = 7 ∧
      (homing_switch sample_config (sample_task BACKING_OFF_A_ENDSTOP none none)
        (sample_inputs 1 0 0 0)).wrist.axis_b.speed_ctrl = 13 :=
  have h : transition_condition sample_config (sample_task BACKING_OFF_A_ENDSTOP none none)
      (sample_inputs 1 0 0 0) = false := by
    have h5 : to_float (-5) = -5 := by simpa using to_float_intCast (-5) (by norm_num)
    norm_num [transition_condition, sample_task, reached_target_pos, as5600_get_position_a,
      sample_inputs, sample_wrist, sample_axis, sample_config, h5, le_abs]
  ⟨by decide, h,
    switch_frame_when_condition_false sample_config
      (sample_task BACKING_OFF_A_ENDSTOP none none) (sample_inputs 1 0 0 0) (by decide) h⟩

/-- C3: `FINISHED` is absorbing.  From a task in state `FINISHED`, after any
finite sequence of triggers with arbitrary inputs the state is still
`FINISHED` and the four commanded values, `rising_edge` and `falling_edge`
are what they were. -/
theorem finished_is_absorbing (c : config_t) (t : task_t) (is : List inputs_t)
    (h : t.state = FINISHED) :
    (homing_run c t is).state = FINISHED ∧
      (homing_run c t is).wrist.axis_a.pos_ctrl = t.wrist.axis_a.pos_ctrl ∧
      (homing_run c t is).wrist.axis_a.speed_ctrl = t.wrist.axis_a.speed_ctrl ∧
      (homing_run c t is).wrist.axis_b.pos_ctrl = t.wrist.axis_b.pos_ctrl ∧
      (homing_run c t is).wrist.axis_b.speed_ctrl = t.wrist.axis_b.speed_ctrl ∧
      (homing_run c t is).rising_edge = t.rising_edge ∧
      (homing_run c t is).falling_edge = t.falling_edge := by
  obtain ⟨h1, h2, _, h4, h5⟩ := run_finished c is t h
  rw [h2]
  exact ⟨h1, rfl, rfl, rfl, rfl, h4, h5⟩

theorem finished_is_absorbing_witness :
    (sample_task FINISHED (some 1) (some 3)).state = FINISHED ∧
      (homing_run sample_config (sample_task FINISHED (some 1) (some 3))
        [sample_inputs 1 0 5 7, sample_inputs 0 1 0 (-1 / 2)]).state = FINISHED ∧
      (homing_run sample_config (sample_task FINISHED (some 1) (some 3))
        [sample_inputs 1 0 5 7, sample_inputs 0 1 0 (-1 / 2)]).wrist.axis_a.pos_ctrl = 5 ∧
      (homing_run sample_config (sample_task FINISHED (some 1) (some 3))
        [sample_inputs 1 0 5 7, sample_inputs 0 1 0 (-1 / 2)]).wrist.axis_a.speed_ctrl = 11 ∧
      (homing_run sample_config (sample_task FINISHED (some 1) (some 3))
        [sample_inputs 1 0 5 7, sample_inputs 0 1 0 (-1 / 2)]).wrist.axis_b.pos_ctrl = 7 ∧
      (homing_run sample_config (sample_task FINISHED (some 1) (some 3))
        [sample_inputs 1 0 5 7, sample_inputs 0 1 0 (-1 / 2)]).wrist.axis_b.speed_ctrl = 13 ∧
      (homing_run sample_config (sample_task FINISHED (some 1) (some 3))
        [sample_inputs 1 0 5 7, sample_inputs 0 1 0 (-1 / 2)]).rising_edge = some 3 ∧
      (homing_run sample_config (sample_task FINISHED (some 1) (some 3))
        [sample_inputs 1 0 5 7, sample_inputs 0 1 0 (-1 / 2)]).falling_edge = none :=
  ⟨rfl, finished_is_absorbing sample_config (sample_task FINISHED (some 1) (some 3))
    [sample_inputs 1 0 5 7, sample_inputs 0 1 0 (-1 / 2)] rfl⟩

/-- C4 as stated fails: the value written is a rounded one.  With the
`float`s `r = -1`, `f = -13421773/16777216` (the `float` nearest `-0.8`) and
reference `1` the exact value of `(f - r) / 2 + 1` is `36909875/33554432`,
which no `float` holds; the code writes `9227469/8388608`. -/
theorem calibrated_value_differs_from_exact_formula :
    to_float (-(4 / 5)) = -13421773 / 16777216 ∧
      to_float (-13421773 / 16777216) = -13421773 / 16777216 ∧
      (homing_switch sample_config (sample_task FINDING_B_AXIS_FALLING_EDGE (some 1) (some (-1)))
        (sample_inputs 0 1 0 (-13421773 / 16777216))).wrist.axis_b.encoder.set_log =
        [9227469 / 8388608] ∧
      (homing_switch sample_config (sample_task FINDING_B_AXIS_FALLING_EDGE (some 1) (some (-1)))
        (sample_inputs 0 1 0 (-13421773 / 16777216))).wrist.axis_b.encoder.set_log ≠
        [(-13421773 / 16777216 - -1) / 2 + sample_config.ENDSTOP_B_POSITION] := by
  have hf : to_float (13421773 / 16777216) = 13421773 / 16777216 := by
    have := to_float_of_representable 13421773 (-24) (by norm_num) (by norm_num)
    norm_num at this
    exact this
  have h1 : to_float (3355443 / 16777216) = 3355443 / 16777216 := by
    have := to_float_of_representable 3355443 (-24) (by norm_num) (by norm_num)
    norm_num at this
    exact this
  have h2 : to_float (3355443 / 33554432) = 3355443 / 33554432 := by
    have := to_float_of_representable 3355443 (-25) (by norm_num) (by norm_num)
    norm_num at this
    exact this
  have h3 : to_float (36909875 / 33554432) = 9227469 / 8388608 := by
    unfold to_float
    rw [round_binary_eq 24 (-126) (36909875 / 33554432) 0 9227469
      (by norm_num [le_abs]) (by norm_num [abs_lt]) (by norm_num [abs_lt])]
    norm_num
  have hw : (homing_switch sample_config
      (sample_task FINDING_B_AXIS_FALLING_EDGE (some 1) (some (-1)))
      (sample_inputs 0 1 0 (-13421773 / 16777216))).wrist.axis_b.encoder.set_log =
      [9227469 / 8388608] := by
    simp only [homing_switch, sample_task, sample_inputs, sample_wrist, sample_axis,
      sample_config, b_axis_endstop, as5600_set_position, as5600_get_position_b,
      Option.getD_some]
    norm_num [h1, h2, h3]
  refine ⟨?_, ?_, hw, ?_⟩
  · rw [to_float_neg, to_float_decimals.2.2.2.1]; norm_num
  · have e : (-13421773 / 16777216 : ℚ) = -(13421773 / 16777216) := by norm_num
    rw [e, to_float_neg, hf]
  · rw [hw]
    norm_num [sample_config]

/-- C4, amended: in `FINDING_B_AXIS_FALLING_EDGE` with the B endstop not
triggered, with stored rising edge `r` and B reading `f`, the value written
to the B encoder is `(f - r) / 2 + ENDSTOP_B_POSITION` as `float` arithmetic
evaluates it: the difference, its half and the sum are each rounded to the
nearest `float` (none of them overflowing).  It is exactly
`(f - r) / 2 + ENDSTOP_B_POSITION` when these three values are `float`s.
`falling_edge` becomes `f`. -/
theorem falling_edge_calibrated_value (c : config_t) (t : task_t) (i : inputs_t) (r : ℚ)
    (hs : t.state = FINDING_B_AXIS_FALLING_EDGE) (hr : t.rising_edge = some r)
    (he : b_axis_endstop i = false)
    (hfin1 : float_finite (to_float (i.pos_b - r)))
    (hfin2 : float_finite
      (to_float (to_float (to_float (i.pos_b - r) / 2) + c.ENDSTOP_B_POSITION))) :
    (homing_switch c t i).wrist.axis_b.encoder.set_log =
        to_float (to_float (to_float (i.pos_b - r) / 2) + c.ENDSTOP_B_POSITION) ::
          t.wrist.axis_b.encoder.set_log ∧
      (homing_switch c t i).falling_edge = some i.pos_b ∧
      (to_float (i.pos_b - r) = i.pos_b - r →
        to_float ((i.pos_b - r) / 2) = (i.pos_b - r) / 2 →
        to_float ((i.pos_b - r) / 2 + c.ENDSTOP_B_POSITION) =
          (i.pos_b - r) / 2 + c.ENDSTOP_B_POSITION →
        (homing_switch c t i).wrist.axis_b.encoder.set_log =
          ((i.pos_b - r) / 2 + c.ENDSTOP_B_POSITION) :: t.wrist.axis_b.encoder.set_log) := by
  have _ := hfin1
  have _ := hfin2
  have hw : (homing_switch c t i).wrist.axis_b.encoder.set_log =
        to_float (to_float (to_float (i.pos_b - r) / 2) + c.ENDSTOP_B_POSITION) ::
          t.wrist.axis_b.encoder.set_log ∧
      (homing_switch c t i).falling_edge = some i.pos_b := by
    unfold homing_switch
    simp [hs, hr, he, as5600_set_position, as5600_get_position_b]
  refine ⟨hw.1, hw.2, ?_⟩
  intro e1 e2 e3
  rw [hw.1, e1, e2, e3]

theorem falling_edge_calibrated_value_witness :
    to_float (17 / 5) = 7130317 / 2097152 ∧ to_float (6 / 5) = 5033165 / 4194304 ∧
      (sample_task FINDING_B_AXIS_FALLING_EDGE (some 1) (some 3)).state =
        FINDING_B_AXIS_FALLING_EDGE ∧
      (sample_task FINDING_B_AXIS_FALLING_EDGE (some 1) (some 3)).rising_edge = some 3 ∧
      b_axis_endstop (sample_inputs 0 1 0 (7130317 / 2097152)) = false ∧
      float_finite (to_float ((sample_inputs 0 1 0 (7130317 / 2097152)).pos_b - 3)) ∧
      float_finite (to_float (to_float
        (to_float ((sample_inputs 0 1 0 (7130317 / 2097152)).pos_b - 3) / 2) +
          sample_config.ENDSTOP_B_POSITION)) ∧
      (homing_switch sample_config (sample_task FINDING_B_AXIS_FALLING_EDGE (some 1) (some 3))
        (sample_inputs 0 1 0 (7130317 / 2097152))).wrist.axis_b.encoder.set_log =
        [5033165 / 4194304] ∧
      (homing_switch sample_config (sample_task FINDING_B_AXIS_FALLING_EDGE (some 1) (some 3))
        (sample_inputs 0 1 0 (7130317 / 2097152))).falling_edge = some (7130317 / 2097152) :=
  have h1 : to_float (838861 / 2097152) = 838861 / 2097152 := by
    have := to_float_of_representable 838861 (-21) (by norm_num) (by norm_num)
    norm_num at this
    exact this
  have h2 : to_float (838861 / 4194304) = 838861 / 4194304 := by
    have := to_float_of_representable 838861 (-22) (by norm_num) (by norm_num)
    norm_num at this
    exact this
  have h3 : to_float (5033165 / 4194304) = 5033165 / 4194304 := by
    have := to_float_of_representable 5033165 (-22) (by norm_num) (by norm_num)
    norm_num at this
    exact this
  have f1 : float_finite (to_float ((sample_inputs 0 1 0 (7130317 / 2097152)).pos_b - 3)) := by
    norm_num [sample_inputs, h1, float_finite, float_max, abs_le]
  have f2 : float_finite (to_float (to_float
      (to_float ((sample_inputs 0 1 0 (7130317 / 2097152)).pos_b - 3) / 2) +
        sample_config.ENDSTOP_B_POSITION)) := by
    norm_num [sample_inputs, sample_config, h1, h2, h3, float_finite, float_max, abs_le]
  have h := falling_edge_calibrated_value sample_config
    (sample_task FINDING_B_AXIS_FALLING_EDGE (some 1) (some 3))
    (sample_inputs 0 1 0 (7130317 / 2097152)) 3 rfl rfl (by decide) f1 f2
  ⟨to_float_decimals.1, to_float_decimals.2.1, rfl, rfl, by decide, f1, f2, by
    rw [h.1]
    norm_num [sample_inputs, sample_config, sample_task, sample_wrist, sample_axis, h1, h2, h3],
    h.2.1⟩

/-- C5 as stated fails: the target is a rounded value.  With B reading `-2`
and reference `1` the transition stores `dir = 1` and the B target
`-5033165/4194304`, not `-1 * (1 / 5) - 1 = -6/5`, which no `float` holds. -/
theorem approach_target_differs_from_exact_formula :
    (homing_switch sample_config (sample_task MOVING_TO_B_END none none)
        (sample_inputs 0 1 5 (-2))).dir = some 1 ∧
      (homing_switch sample_config (sample_task MOVING_TO_B_END none none)
        (sample_inputs 0 1 5 (-2))).wrist.axis_b.pos_ctrl = -(5033165 / 4194304) ∧
      (homing_switch sample_config (sample_task MOVING_TO_B_END none none)
        (sample_inputs 0 1 5 (-2))).wrist.axis_b.pos_ctrl ≠
        -((1 : Int) : ℚ) * (1 / 5) - sample_config.ENDSTOP_B_POSITION := by
  have hd : dir_of (-2) = 1 := by norm_num [dir_of]
  have hsw : (homing_switch sample_config (sample_task MOVING_TO_B_END none none)
        (sample_inputs 0 1 5 (-2))).dir = some 1 ∧
      (homing_switch sample_config (sample_task MOVING_TO_B_END none none)
        (sample_inputs 0 1 5 (-2))).wrist.axis_b.pos_ctrl = -(5033165 / 4194304) := by
    simp only [homing_switch, sample_task, sample_inputs, sample_wrist, sample_axis,
      sample_config, reached_target_pos, as5600_get_position_a, as5600_get_position_b,
      approach_target_at_minus_two]
    norm_num [to_float_zero, hd]
  refine ⟨hsw.1, hsw.2, ?_⟩
  rw [hsw.2]
  norm_num [sample_config]

/-- C5, amended: in `MOVING_TO_B_END` with axis A at target, with B reading
`p` the transition stores `dir = 1` if `p < 0`, `-1` if `p > 0` and `0` if
`p = 0`, sets the B target to the `float` nearest
`-dir * 0.2f - ENDSTOP_B_POSITION`, where `0.2f` is `13421773/67108864` (the
result not overflowing), and moves to `MOVING_NEXT_TO_B_END_SWITCH`. -/
theorem moving_to_b_end_sets_dir_and_target (c : config_t) (t : task_t) (i : inputs_t)
    (hs : t.state = MOVING_TO_B_END)
    (ha : reached_target_pos c i.pos_a t.wrist.axis_a = true)
    (hfin : float_finite (homing_switch c t i).wrist.axis_b.pos_ctrl) :
    (homing_switch c t i).dir =
        some (if i.pos_b < 0 then 1 else if 0 < i.pos_b then -1 else 0) ∧
      (homing_switch c t i).wrist.axis_b.pos_ctrl =
        to_float
          (-((if i.pos_b < 0 then 1 else if 0 < i.pos_b then -1 else 0 : Int) : ℚ) *
              (13421773 / 67108864)
            - c.ENDSTOP_B_POSITION) ∧
      (homing_switch c t i).state = MOVING_NEXT_TO_B_END_SWITCH := by
  have _ := hfin
  have h : (homing_switch c t i).dir = some (dir_of i.pos_b) ∧
      (homing_switch c t i).wrist.axis_b.pos_ctrl =
        to_float (to_float (((-dir_of i.pos_b : Int) : ℚ) * to_float (1 / 5))
          - c.ENDSTOP_B_POSITION) ∧
      (homing_switch c t i).state = MOVING_NEXT_TO_B_END_SWITCH := by
    unfold homing_switch
    simp only [hs, as5600_get_position_a, as5600_get_position_b, ha, if_true]
    exact ⟨trivial, trivial, trivial⟩
  rw [to_float_dir_mul, dir_of_cases] at h
  exact h

theorem moving_to_b_end_sets_dir_and_target_witness :
    to_float (-(6 / 5)) = -(5033165 / 4194304) ∧
      (sample_task MOVING_TO_B_END none none).state = MOVING_TO_B_END ∧
      reached_target_pos sample_config (sample_inputs 0 1 5 (-2)).pos_a
        (sample_task MOVING_TO_B_END none none).wrist.axis_a = true ∧
      float_finite (homing_switch sample_config (sample_task MOVING_TO_B_END none none)
        (sample_inputs 0 1 5 (-2))).wrist.axis_b.pos_ctrl ∧
      (homing_switch sample_config (sample_task MOVING_TO_B_END none none)
        (sample_inputs 0 1 5 (-2))).dir = some 1 ∧
      (homing_switch sample_config (sample_task MOVING_TO_B_END none none)
        (sample_inputs 0 1 5 (-2))).wrist.axis_b.pos_ctrl = -(5033165 / 4194304) ∧
      (homing_switch sample_config (sample_task MOVING_TO_B_END none none)
        (sample_inputs 0 1 5 (-2))).state = MOVING_NEXT_TO_B_END_SWITCH :=
  have ha : reached_target_pos sample_config (sample_inputs 0 1 5 (-2)).pos_a
      (sample_task MOVING_TO_B_END none none).wrist.axis_a = true := by
    norm_num [reached_target_pos, sample_task, sample_inputs, sample_wrist, sample_axis,
      sample_config, to_float_zero]
  have hd : dir_of (-2) = 1 := by norm_num [dir_of]
  have hv : (homing_switch sample_config (sample_task MOVING_TO_B_END none none)
      (sample_inputs 0 1 5 (-2))).wrist.axis_b.pos_ctrl = -(5033165 / 4194304) := by
    simp only [homing_switch, sample_task, sample_inputs, sample_wrist, sample_axis,
      sample_config, reached_target_pos, as5600_get_position_a, as5600_get_position_b,
      approach_target_at_minus_two]
    norm_num [to_float_zero]
  have hfin : float_finite (homing_switch sample_config (sample_task MOVING_TO_B_END none none)
      (sample_inputs 0 1 5 (-2))).wrist.axis_b.pos_ctrl := by
    rw [hv]
    norm_num [float_finite, float_max, abs_le]
  have h := moving_to_b_end_sets_dir_and_target sample_config
    (sample_task MOVING_TO_B_END none none) (sample_inputs 0 1 5 (-2)) rfl ha hfin
  ⟨by rw [to_float_neg, to_float_decimals.2.1], rfl, ha, hfin,
    by rw [h.1]; norm_num [sample_inputs], hv, h.2.2⟩

/-- C6 as stated fails: the target is a rounded value.  With A reading `5`
the transition stores the A target `4928307/1048576`, not `5 - 3/10 = 47/10`,
which no `float` holds. -/
theorem backoff_target_differs_from_exact_formula :
    (homing_switch sample_config (sample_task FINDING_A_AXIS_END_COARSE none none)
        (sample_inputs 1 1 5 0)).wrist.axis_a.pos_ctrl = 4928307 / 1048576 ∧
      (homing_switch sample_config (sample_task FINDING_A_AXIS_END_COARSE none none)
        (sample_inputs 1 1 5 0)).wrist.axis_a.pos_ctrl ≠
        (sample_inputs 1 1 5 0).pos_a - 3 / 10 := by
  have hv : (homing_switch sample_config (sample_task FINDING_A_AXIS_END_COARSE none none)
      (sample_inputs 1 1 5 0)).wrist.axis_a.pos_ctrl = 4928307 / 1048576 := by
    simp only [homing_switch, sample_task, sample_inputs, sample_wrist, sample_axis,
      a_axis_endstop, as5600_get_position_a, coarse_target_at_five]
    norm_num
  refine ⟨hv, ?_⟩
  rw [hv]
  norm_num [sample_inputs]

/-- C6, amended: in `FINDING_A_AXIS_END_COARSE` with the A endstop triggered,
with A reading `x` the transition sets A's speed to `0` and A's target to
`x - 0.3` computed in `double`, with `0.3` the `double`
`5404319552844595/18014398509481984`, and rounded to `float` (not
overflowing); it leaves axis B as it was and moves to
`BACKING_OFF_A_ENDSTOP`. -/
theorem coarse_hit_backs_off (c : config_t) (t : task_t) (i : inputs_t)
    (hs : t.state = FINDING_A_AXIS_END_COARSE) (he : a_axis_endstop i = true)
    (hfin : float_finite (homing_switch c t i).wrist.axis_a.pos_ctrl) :
    (homing_switch c t i).wrist.axis_a.speed_ctrl = 0 ∧
      (homing_switch c t i).wrist.axis_a.pos_ctrl =
        to_float (to_double (i.pos_a - 5404319552844595 / 18014398509481984)) ∧
      (homing_switch c t i).wrist.axis_b = t.wrist.axis_b ∧
      (homing_switch c t i).state = BACKING_OFF_A_ENDSTOP := by
  have _ := hfin
  rw [← to_double_three_tenths]
  unfold homing_switch
  simp [hs, he, as5600_get_position_a]

theorem coarse_hit_backs_off_witness :
    to_float (47 / 10) = 4928307 / 1048576 ∧
      (sample_task FINDING_A_AXIS_END_COARSE none none).state = FINDING_A_AXIS_END_COARSE ∧
      a_axis_endstop (sample_inputs 1 1 5 0) = true ∧
      float_finite (homing_switch sample_config
        (sample_task FINDING_A_AXIS_END_COARSE none none)
        (sample_inputs 1 1 5 0)).wrist.axis_a.pos_ctrl ∧
      (homing_switch sample_config (sample_task FINDING_A_AXIS_END_COARSE none none)
        (sample_inputs 1 1 5 0)).wrist.axis_a.speed_ctrl = 0 ∧
      (homing_switch sample_config (sample_task FINDING_A_AXIS_END_COARSE none none)
        (sample_inputs 1 1 5 0)).wrist.axis_a.pos_ctrl = 4928307 / 1048576 ∧
      (homing_switch sample_config (sample_task FINDING_A_AXIS_END_COARSE none none)
        (sample_inputs 1 1 5 0)).wrist.axis_b = sample_axis 7 13 ∧
      (homing_switch sample_config (sample_task FINDING_A_AXIS_END_COARSE none none)
        (sample_inputs 1 1 5 0)).state = BACKING_OFF_A_ENDSTOP :=
  have hv : (homing_switch sample_config (sample_task FINDING_A_AXIS_END_COARSE none none)
      (sample_inputs 1 1 5 0)).wrist.axis_a.pos_ctrl = 4928307 / 1048576 := by
    simp only [homing_switch, sample_task, sample_inputs, sample_wrist, sample_axis,
      a_axis_endstop, as5600_get_position_a, coarse_target_at_five]
    norm_num
  have hfin : float_finite (homing_switch sample_config
      (sample_task FINDING_A_AXIS_END_COARSE none none)
      (sample_inputs 1 1 5 0)).wrist.axis_a.pos_ctrl := by
    rw [hv]
    norm_num [float_finite, float_max, abs_le]
  have h := coarse_hit_backs_off sample_config
    (sample_task FINDING_A_AXIS_END_COARSE none none) (sample_inputs 1 1 5 0) rfl (by decide)
    hfin
  ⟨to_float_decimals.2.2.1, rfl, by decide, hfin, h.1, hv, h.2.2.1, h.2.2.2⟩

/-- C7 as stated fails: the comparison is made on the rounded difference.
With tolerance `1/4`, reading `1/4` and target `2^-28` (all `float`s) the
exact difference `1/4 - 2^-28` is below the tolerance, but it rounds to the
`float` `1/4`, and `reached_target_pos` is false. -/
theorem reached_target_pos_differs_from_exact_comparison :
    |(1 / 4 : ℚ) - (sample_axis (1 / 268435456) 0).pos_ctrl| <
        ({ sample_config with POSITION_TOLERANCE := 1 / 4 } : config_t).POSITION_TOLERANCE ∧
      to_float (1 / 4 - (sample_axis (1 / 268435456) 0).pos_ctrl) = 1 / 4 ∧
      reached_target_pos { sample_config with POSITION_TOLERANCE := 1 / 4 } (1 / 4)
        (sample_axis (1 / 268435456) 0) = false := by
  have hr : to_float (67108863 / 268435456) = 1 / 4 := by
    unfold to_float
    rw [round_binary_eq 24 (-126) (67108863 / 268435456) (-3) 16777216
      (by norm_num [le_abs]) (by norm_num [abs_lt]) (by norm_num [abs_lt])]
    norm_num
  refine ⟨?_, ?_, ?_⟩
  · norm_num [sample_axis, sample_config, abs_lt]
  · norm_num [sample_axis, hr]
  · norm_num [reached_target_pos, sample_axis, sample_config, hr, le_abs]

/-- C7, amended: `reached_target_pos` is true exactly when the absolute value
of the difference between the reading and the commanded target, rounded to
`float` (and finite), is strictly below `POSITION_TOLERANCE`; a rounded
difference equal to the tolerance is not at target; the result depends only
on the reading, the target and the tolerance.  It is the exact comparison
when the difference is a `float`, and in every case it is true when
`|d| * (1 + 2^-24) + 2^-150` is below the tolerance and false when
`|d| * (1 - 2^-24) - 2^-150` is at least the tolerance, `d` being the exact
difference. -/
theorem reached_target_pos_iff (c : config_t) (reading : ℚ) (axis : axis_t)
    (hfin : float_finite (to_float (reading - axis.pos_ctrl))) :
    (reached_target_pos c reading axis = true ↔
        |to_float (reading - axis.pos_ctrl)| < c.POSITION_TOLERANCE) ∧
      (|to_float (reading - axis.pos_ctrl)| = c.POSITION_TOLERANCE →
        reached_target_pos c reading axis = false) ∧
      (∀ (c2 : config_t) (axis2 : axis_t),
        c2.POSITION_TOLERANCE = c.POSITION_TOLERANCE → axis2.pos_ctrl = axis.pos_ctrl →
          reached_target_pos c2 reading axis2 = reached_target_pos c reading axis) ∧
      (to_float (reading - axis.pos_ctrl) = reading - axis.pos_ctrl →
        (reached_target_pos c reading axis = true ↔
          |reading - axis.pos_ctrl| < c.POSITION_TOLERANCE)) ∧
      (|reading - axis.pos_ctrl| * (1 + 2 ^ (-24 : ℤ)) + 2 ^ (-150 : ℤ) <
          c.POSITION_TOLERANCE →
        reached_target_pos c reading axis = true) ∧
      (c.POSITION_TOLERANCE ≤
          |reading - axis.pos_ctrl| * (1 - 2 ^ (-24 : ℤ)) - 2 ^ (-150 : ℤ) →
        reached_target_pos c reading axis = false) := by
  have _ := hfin
  have herr := to_float_error (reading - axis.pos_ctrl)
  have hup : |to_float (reading - axis.pos_ctrl)| ≤
      |reading - axis.pos_ctrl| + |to_float (reading - axis.pos_ctrl) - (reading - axis.pos_ctrl)| := by
    have := abs_add (reading - axis.pos_ctrl)
      (to_float (reading - axis.pos_ctrl) - (reading - axis.pos_ctrl))
    simpa using this
  have hlow : |reading - axis.pos_ctrl| ≤
      |to_float (reading - axis.pos_ctrl)| +
        |to_float (reading - axis.pos_ctrl) - (reading - axis.pos_ctrl)| := by
    have := abs_sub_abs_le_abs_sub (reading - axis.pos_ctrl) (to_float (reading - axis.pos_ctrl))
    rw [abs_sub_comm (reading - axis.pos_ctrl) (to_float (reading - axis.pos_ctrl))] at this
    linarith
  refine ⟨by simp [reached_target_pos], ?_, ?_, ?_, ?_, ?_⟩
  · intro h
    simp [reached_target_pos, h]
  · intro c2 axis2 h1 h2
    simp [reached_target_pos, h1, h2]
  · intro h
    simp [reached_target_pos, h]
  · intro h
    have : |to_float (reading - axis.pos_ctrl)| < c.POSITION_TOLERANCE := by
      have e : |reading - axis.pos_ctrl| * (1 + 2 ^ (-24 : ℤ)) =
          |reading - axis.pos_ctrl| + |reading - axis.pos_ctrl| * 2 ^ (-24 : ℤ) := by ring
      linarith
    simp [reached_target_pos, this]
  · intro h
    have : c.POSITION_TOLERANCE ≤ |to_float (reading - axis.pos_ctrl)| := by
      have e : |reading - axis.pos_ctrl| * (1 - 2 ^ (-24 : ℤ)) =
          |reading - axis.pos_ctrl| - |reading - axis.pos_ctrl| * 2 ^ (-24 : ℤ) := by ring
      linarith
    simp [reached_target_pos, this]

theorem reached_target_pos_iff_witness :
    float_finite (to_float (5237637 / 1048576 - (sample_axis 5 0).pos_ctrl)) ∧
      float_finite (to_float (10443817 / 2097152 - (sample_axis 5 0).pos_ctrl)) ∧
      to_float (4995 / 1000) = 5237637 / 1048576 ∧
      to_float (498 / 100) = 10443817 / 2097152 ∧
      sample_config.POSITION_TOLERANCE = to_double (1 / 100) ∧
      reached_target_pos sample_config (5237637 / 1048576) (sample_axis 5 0) = true ∧
      reached_target_pos sample_config (10443817 / 2097152) (sample_axis 5 0) = false :=
  have d1 : to_float (5243 / 1048576) = 5243 / 1048576 := by
    have := to_float_of_representable 5243 (-20) (by norm_num) (by norm_num)
    norm_num at this
    exact this
  have d2 : to_float (41943 / 2097152) = 41943 / 2097152 := by
    have := to_float_of_representable 41943 (-21) (by norm_num) (by norm_num)
    norm_num at this
    exact this
  have e1 : to_float (5237637 / 1048576 - (sample_axis 5 0).pos_ctrl) =
      5237637 / 1048576 - (sample_axis 5 0).pos_ctrl := by
    norm_num [sample_axis, to_float_neg, d1]
  have e2 : to_float (10443817 / 2097152 - (sample_axis 5 0).pos_ctrl) =
      10443817 / 2097152 - (sample_axis 5 0).pos_ctrl := by
    norm_num [sample_axis, to_float_neg, d2]
  have f1 : float_finite (to_float (5237637 / 1048576 - (sample_axis 5 0).pos_ctrl)) := by
    rw [e1]
    norm_num [sample_axis, float_finite, float_max, abs_le]
  have f2 : float_finite (to_float (10443817 / 2097152 - (sample_axis 5 0).pos_ctrl)) := by
    rw [e2]
    norm_num [sample_axis, float_finite, float_max, abs_le]
  have h1 := reached_target_pos_iff sample_config (5237637 / 1048576) (sample_axis 5 0) f1
  have h2 := reached_target_pos_iff sample_config (10443817 / 2097152) (sample_axis 5 0) f2
  ⟨f1, f2, to_float_decimals.2.2.2.2.1, to_float_decimals.2.2.2.2.2,
    by rw [to_double_one_hundredth]; rfl,
    (h1.2.2.2.1 e1).mpr (by norm_num [sample_axis, sample_config, abs_lt]),
    by
      have h := (h2.2.2.2.1 e2).not.mpr (by norm_num [sample_axis, sample_config, le_abs])
      simpa using h⟩

/-- C8: in `FINDING_A_AXIS_END_FINE` with the A endstop triggered the
transition sets A's speed to `0`, writes `ENDSTOP_A_POSITION` to A's encoder,
sets A's target to `A_AXIS_MAX`, leaves axis B as it was and moves to
`MOVING_TO_B_END`. -/
theorem fine_hit_zeroes_a (c : config_t) (t : task_t) (i : inputs_t)
    (hs : t.state = FINDING_A_AXIS_END_FINE) (he : a_axis_endstop i = true) :
    (homing_switch c t i).wrist.axis_a.speed_ctrl = 0 ∧
      (homing_switch c t i).wrist.axis_a.encoder.set_log =
        c.ENDSTOP_A_POSITION :: t.wrist.axis_a.encoder.set_log ∧
      (homing_switch c t i).wrist.axis_a.pos_ctrl = c.A_AXIS_MAX ∧
      (homing_switch c t i).wrist.axis_b = t.wrist.axis_b ∧
      (homing_switch c t i).state = MOVING_TO_B_END := by
  unfold homing_switch
  simp [hs, he, as5600_set_position]

theorem fine_hit_zeroes_a_witness :
    (sample_task FINDING_A_AXIS_END_FINE none none).state = FINDING_A_AXIS_END_FINE ∧
      a_axis_endstop (sample_inputs 1 1 (9 / 2) 0) = true ∧
      (homing_switch sample_config (sample_task FINDING_A_AXIS_END_FINE none none)
        (sample_inputs 1 1 (9 / 2) 0)).wrist.axis_a.speed_ctrl = 0 ∧
      (homing_switch sample_config (sample_task FINDING_A_AXIS_END_FINE none none)
        (sample_inputs 1 1 (9 / 2) 0)).wrist.axis_a.encoder.set_log = [3] ∧
      (homing_switch sample_config (sample_task FINDING_A_AXIS_END_FINE none none)
        (sample_inputs 1 1 (9 / 2) 0)).wrist.axis_a.pos_ctrl = 4 ∧
      (homing_switch sample_config (sample_task FINDING_A_AXIS_END_FINE none none)
        (sample_inputs 1 1 (9 / 2) 0)).wrist.axis_b = sample_axis 7 13 ∧
      (homing_switch sample_config (sample_task FINDING_A_AXIS_END_FINE none none)
        (sample_inputs 1 1 (9 / 2) 0)).state = MOVING_TO_B_END :=
  ⟨rfl, by decide, fine_hit_zeroes_a sample_config
    (sample_task FINDING_A_AXIS_END_FINE none none) (sample_inputs 1 1 (9 / 2) 0) rfl
    (by decide)⟩

/-- C9: in `FINDING_B_AXIS_FALLING_EDGE` with the B endstop not triggered the
transition sets B's speed to `0`, A's target to `0` and B's target to `-0.5`,
leaves A's speed as it was and moves to `MOVING_TO_ZERO`. -/
theorem falling_edge_commands_zero_targets (c : config_t) (t : task_t) (i : inputs_t)
    (hs : t.state = FINDING_B_AXIS_FALLING_EDGE) (he : b_axis_endstop i = false) :
    (homing_switch c t i).wrist.axis_b.speed_ctrl = 0 ∧
      (homing_switch c t i).wrist.axis_a.pos_ctrl = 0 ∧
      (homing_switch c t i).wrist.axis_b.pos_ctrl = -(1 / 2) ∧
      (homing_switch c t i).wrist.axis_a.speed_ctrl = t.wrist.axis_a.speed_ctrl ∧
      (homing_switch c t i).state = MOVING_TO_ZERO := by
  unfold homing_switch
  simp [hs, he]

theorem falling_edge_commands_zero_targets_witness :
    (sample_task FINDING_B_AXIS_FALLING_EDGE (some (-1)) (some 2)).state =
        FINDING_B_AXIS_FALLING_EDGE ∧
      b_axis_endstop (sample_inputs 0 1 4 (5 / 2)) = false ∧
      (homing_switch sample_config (sample_task FINDING_B_AXIS_FALLING_EDGE (some (-1)) (some 2))
        (sample_inputs 0 1 4 (5 / 2))).wrist.axis_b.speed_ctrl = 0 ∧
      (homing_switch sample_config (sample_task FINDING_B_AXIS_FALLING_EDGE (some (-1)) (some 2))
        (sample_inputs 0 1 4 (5 / 2))).wrist.axis_a.pos_ctrl = 0 ∧
      (homing_switch sample_config (sample_task FINDING_B_AXIS_FALLING_EDGE (some (-1)) (some 2))
        (sample_inputs 0 1 4 (5 / 2))).wrist.axis_b.pos_ctrl = -(1 / 2) ∧
      (homing_switch sample_config (sample_task FINDING_B_AXIS_FALLING_EDGE (some (-1)) (some 2))
        (sample_inputs 0 1 4 (5 / 2))).wrist.axis_a.speed_ctrl = 11 ∧
      (homing_switch sample_config (sample_task FINDING_B_AXIS_FALLING_EDGE (some (-1)) (some 2))
        (sample_inputs 0 1 4 (5 / 2))).state = MOVING_TO_ZERO :=
  ⟨rfl, by decide, falling_edge_commands_zero_targets sample_config
    (sample_task FINDING_B_AXIS_FALLING_EDGE (some (-1)) (some 2))
    (sample_inputs 0 1 4 (5 / 2)) rfl (by decide)⟩

/-- C10: the direction sign is used unchanged after it is computed.  When a
pass in `MOVING_TO_B_END` with axis A at target stores `dir`, then after any
further sequence of triggers `dir` still holds that value; if the task is
then in `MOVING_NEXT_TO_B_END_SWITCH` with axis B at target, the transition
sets B's speed to `FINE_HOMING_SPEED * dir` (which is `0` when the B reading
at the time `dir` was computed was `0`); and no evaluation of the switch in
`MOVING_NEXT_TO_B_END_SWITCH` or any later state modifies `dir`. -/
theorem dir_is_used_unchanged (c : config_t) (t : task_t) (i0 : inputs_t)
    (is : List inputs_t) (i : inputs_t)
    (hs : t.state = MOVING_TO_B_END)
    (ha : reached_target_pos c i0.pos_a t.wrist.axis_a = true) :
    (homing_pass c t i0).dir = some (dir_of i0.pos_b) ∧
      (homing_run c t (i0 :: is)).dir = some (dir_of i0.pos_b) ∧
      ((homing_run c t (i0 :: is)).state = MOVING_NEXT_TO_B_END_SWITCH →
        reached_target_pos c i.pos_b (homing_run c t (i0 :: is)).wrist.axis_b = true →
          (homing_switch c (homing_run c t (i0 :: is)) i).wrist.axis_b.speed_ctrl =
              c.FINE_HOMING_SPEED * ((dir_of i0.pos_b : Int) : ℚ) ∧
            (homing_switch c (homing_run c t (i0 :: is)) i).state =
              FINDING_B_AXIS_RISING_EDGE ∧
            (i0.pos_b = 0 →
              (homing_switch c (homing_run c t (i0 :: is)) i).wrist.axis_b.speed_ctrl = 0)) ∧
      (∀ (t2 : task_t) (i2 : inputs_t), 4 ≤ t2.state.val →
        (homing_switch c t2 i2).dir = t2.dir) := by
  have h1 : (homing_pass c t i0).dir = some (dir_of i0.pos_b) ∧
      (homing_pass c t i0).state = MOVING_NEXT_TO_B_END_SWITCH := by
    unfold homing_pass homing_switch
    simp [hs, ha, as5600_get_position_a, as5600_get_position_b]
  have h2 := run_dir_unchanged c is (homing_pass c t i0) (by rw [h1.2]; decide)
  have h3 : (homing_run c t (i0 :: is)).dir = some (dir_of i0.pos_b) := by
    simp only [homing_run]
    rw [h2.1, h1.1]
  refine ⟨h1.1, h3, ?_, ?_⟩
  · intro hn hb
    have hsp : (homing_switch c (homing_run c t (i0 :: is)) i).wrist.axis_b.speed_ctrl =
          c.FINE_HOMING_SPEED * ((dir_of i0.pos_b : Int) : ℚ) ∧
        (homing_switch c (homing_run c t (i0 :: is)) i).state =
          FINDING_B_AXIS_RISING_EDGE := by
      unfold homing_switch
      simp [hn, hb, h3, as5600_get_position_b]
    refine ⟨hsp.1, hsp.2, ?_⟩
    intro hz
    rw [hsp.1, hz]
    simp [dir_of]
  · intro t2 i2 h
    apply switch_dir_unchanged
    intro hc
    rw [hc] at h
    simp [homing_state_t.val] at h

theorem dir_is_used_unchanged_witness :
    (sample_task MOVING_TO_B_END none none).state = MOVING_TO_B_END ∧
      reached_target_pos sample_config (sample_inputs 0 1 5 (-2)).pos_a
        (sample_task MOVING_TO_B_END none none).wrist.axis_a = true ∧
      (homing_run sample_config (sample_task MOVING_TO_B_END none none)
        [sample_inputs 0 1 5 (-2), sample_inputs 0 1 5 0]).dir = some 1 ∧
      (homing_switch sample_config
        (homing_run sample_config (sample_task MOVING_TO_B_END none none)
          [sample_inputs 0 1 5 (-2), sample_inputs 0 1 5 0])
        (sample_inputs 0 1 5 (-(5033165 / 4194304)))).wrist.axis_b.speed_ctrl = 1 / 2 :=
  have ha : reached_target_pos sample_config (sample_inputs 0 1 5 (-2)).pos_a
      (sample_task MOVING_TO_B_END none none).wrist.axis_a = true := by
    norm_num [reached_target_pos, sample_task, sample_inputs, sample_wrist, sample_axis,
      sample_config, to_float_zero]
  have hd : dir_of (sample_inputs 0 1 5 (-2)).pos_b = 1 := by
    norm_num [dir_of, sample_inputs]
  have h := dir_is_used_unchanged sample_config (sample_task MOVING_TO_B_END none none)
    (sample_inputs 0 1 5 (-2)) [sample_inputs 0 1 5 0]
    (sample_inputs 0 1 5 (-(5033165 / 4194304))) rfl ha
  have hsp := h.2.2.1 (by rw [sample_wait_then_at_target]; rfl) (by
    rw [sample_wait_then_at_target]
    norm_num [reached_target_pos, sample_inputs, sample_axis, sample_config, to_float_zero])
  ⟨rfl, ha, by rw [h.2.1, hd], by rw [hsp.1, hd]; norm_num [sample_config]⟩

/-- C11: a sequencer stalls while its endstop stays silent.  Over any finite
sequence of triggers during which the A endstop is never triggered, a task in
`FINDING_A_AXIS_END_COARSE` or in `FINDING_A_AXIS_END_FINE` ends in the state
it started in, whatever the encoder readings; a task in
`FINDING_B_AXIS_RISING_EDGE` does so over any sequence during which the B
endstop is never triggered. -/
theorem stalls_without_endstop (c : config_t) (t : task_t) (is : List inputs_t)
    (h : ((t.state = FINDING_A_AXIS_END_COARSE ∨ t.state = FINDING_A_AXIS_END_FINE) ∧
          ∀ i ∈ is, a_axis_endstop i = false) ∨
        (t.state = FINDING_B_AXIS_RISING_EDGE ∧ ∀ i ∈ is, b_axis_endstop i = false)) :
    (homing_run c t is).state = t.state := by
  apply (run_stalls c is t _).1
  intro i hi u hu _
  unfold transition_condition
  rcases h with ⟨hs | hs, he⟩ | ⟨hs, he⟩
  · simp [hu, hs, he i hi]
  · simp [hu, hs, he i hi]
  · simp [hu, hs, he i hi]

theorem stalls_without_endstop_witness :
    (((sample_task FINDING_A_AXIS_END_FINE none none).state = FINDING_A_AXIS_END_COARSE ∨
          (sample_task FINDING_A_AXIS_END_FINE none none).state = FINDING_A_AXIS_END_FINE) ∧
        ∀ i ∈ [sample_inputs 0 0 5 7, sample_inputs 0 1 (-3) 2, sample_inputs 0 0 5 7],
          a_axis_endstop i = false) ∧
      (homing_run sample_config (sample_task FINDING_A_AXIS_END_FINE none none)
        [sample_inputs 0 0 5 7, sample_inputs 0 1 (-3) 2, sample_inputs 0 0 5 7]).state =
        FINDING_A_AXIS_END_FINE :=
  have h : ((sample_task FINDING_A_AXIS_END_FINE none none).state = FINDING_A_AXIS_END_COARSE ∨
        (sample_task FINDING_A_AXIS_END_FINE none none).state = FINDING_A_AXIS_END_FINE) ∧
      ∀ i ∈ [sample_inputs 0 0 5 7, sample_inputs 0 1 (-3) 2, sample_inputs 0 0 5 7],
        a_axis_endstop i = false :=
    ⟨Or.inr rfl, by simp [a_axis_endstop, sample_inputs]⟩
  ⟨h, stalls_without_endstop sample_config (sample_task FINDING_A_AXIS_END_FINE none none)
    [sample_inputs 0 0 5 7, sample_inputs 0 1 (-3) 2, sample_inputs 0 0 5 7] (Or.inl h)⟩

/-- C12: the encoders are written at exactly two transitions.  One
evaluation of the switch prepends `ENDSTOP_A_POSITION` to the values written
to A's encoder when the state is `FINDING_A_AXIS_END_FINE` and the A endstop
is triggered, and leaves them as they were otherwise; it prepends the
calibrated value to those written to B's encoder when the state is
`FINDING_B_AXIS_FALLING_EDGE` and the B endstop is not triggered, and leaves
them as they were otherwise.  The log check writes neither. -/
theorem encoders_written_at_two_transitions (c : config_t) (t : task_t) (i : inputs_t) :
    (homing_switch c t i).wrist.axis_a.encoder.set_log =
        (if t.state = FINDING_A_AXIS_END_FINE ∧ a_axis_endstop i = true then
          c.ENDSTOP_A_POSITION :: t.wrist.axis_a.encoder.set_log
        else t.wrist.axis_a.encoder.set_log) ∧
      (homing_switch c t i).wrist.axis_b.encoder.set_log =
        (if t.state = FINDING_B_AXIS_FALLING_EDGE ∧ b_axis_endstop i = false then
          to_float (to_float
              (to_float (i.pos_b - t.rising_edge.getD i.indet_rising_edge) / 2)
            + c.ENDSTOP_B_POSITION) :: t.wrist.axis_b.encoder.set_log
        else t.wrist.axis_b.encoder.set_log) ∧
      (t.state = FINDING_A_AXIS_END_FINE ∧ a_axis_endstop i = true →
        (homing_switch c t i).state = MOVING_TO_B_END) ∧
      (t.state = FINDING_B_AXIS_FALLING_EDGE ∧ b_axis_endstop i = false →
        (homing_switch c t i).state = MOVING_TO_ZERO) ∧
      (log_state t).wrist = t.wrist := by
  refine ⟨?_, ?_, ?_, ?_, log_state_wrist t⟩
  · unfold homing_switch
    split <;> rename_i h <;> (try split) <;> simp_all [as5600_set_position]
  · unfold homing_switch
    split <;> rename_i h <;> (try split) <;>
      simp_all [as5600_set_position, as5600_get_position_b]
  · rintro ⟨hs, he⟩
    unfold homing_switch
    simp [hs, he]
  · rintro ⟨hs, he⟩
    unfold homing_switch
    simp [hs, he]

/-- C13 as stated fails: with rising edge `1`, falling edge `3` and reference
`1` the value written to B's encoder is `2`, not `(1 + 3) / 2 + 1 = 3`. -/
theorem calibrated_is_not_edge_mean_plus_reference :
    (homing_switch sample_config (sample_task FINDING_B_AXIS_FALLING_EDGE (some 1) (some 1))
        (sample_inputs 0 1 0 3)).wrist.axis_b.encoder.set_log = [2] ∧
      (homing_switch sample_config (sample_task FINDING_B_AXIS_FALLING_EDGE (some 1) (some 1))
        (sample_inputs 0 1 0 3)).wrist.axis_b.encoder.set_log ≠
        [(1 + 3) / 2 + sample_config.ENDSTOP_B_POSITION] := by
  have h1 : to_float 1 = 1 := by simpa using to_float_intCast 1 (by norm_num)
  have h2 : to_float 2 = 2 := by simpa using to_float_intCast 2 (by norm_num)
  have h : (homing_switch sample_config
      (sample_task FINDING_B_AXIS_FALLING_EDGE (some 1) (some 1))
      (sample_inputs 0 1 0 3)).wrist.axis_b.encoder.set_log = [2] := by
    simp only [homing_switch, sample_task, sample_inputs, sample_wrist, sample_axis,
      sample_config, b_axis_endstop, as5600_set_position, as5600_get_position_b,
      Option.getD_some]
    norm_num [h1, h2]
  refine ⟨h, ?_⟩
  rw [h]
  norm_num [sample_config]

/-- C13, amended: on the `FINDING_B_AXIS_FALLING_EDGE` transition the value
written to B's encoder is half the distance from the rising edge `r` to the
falling edge `f`, offset by `ENDSTOP_B_POSITION`, as `float` arithmetic
evaluates it: the difference `f - r`, its half and the sum are each rounded
to the nearest `float` (none overflowing).  When these three values are
`float`s the written value is exactly `(f - r) / 2 + ENDSTOP_B_POSITION`,
the offset `f - (r + f) / 2` of the falling edge from the midpoint of the
two edges plus `ENDSTOP_B_POSITION`. -/
theorem calibrated_is_offset_from_midpoint_plus_reference (c : config_t) (t : task_t)
    (i : inputs_t) (r : ℚ)
    (hs : t.state = FINDING_B_AXIS_FALLING_EDGE) (hr : t.rising_edge = some r)
    (he : b_axis_endstop i = false)
    (hfin1 : float_finite (to_float (i.pos_b - r)))
    (hfin2 : float_finite
      (to_float (to_float (to_float (i.pos_b - r) / 2) + c.ENDSTOP_B_POSITION))) :
    (homing_switch c t i).wrist.axis_b.encoder.set_log.head? =
        some (to_float (to_float (to_float (i.pos_b - r) / 2) + c.ENDSTOP_B_POSITION)) ∧
      (to_float (i.pos_b - r) = i.pos_b - r →
        to_float ((i.pos_b - r) / 2) = (i.pos_b - r) / 2 →
        to_float ((i.pos_b - r) / 2 + c.ENDSTOP_B_POSITION) =
          (i.pos_b - r) / 2 + c.ENDSTOP_B_POSITION →
        (homing_switch c t i).wrist.axis_b.encoder.set_log.head? =
            some (i.pos_b - (r + i.pos_b) / 2 + c.ENDSTOP_B_POSITION) ∧
          i.pos_b - (r + i.pos_b) / 2 + c.ENDSTOP_B_POSITION =
            (i.pos_b - r) / 2 + c.ENDSTOP_B_POSITION) := by
  have _ := hfin1
  have _ := hfin2
  have hw : (homing_switch c t i).wrist.axis_b.encoder.set_log.head? =
      some (to_float (to_float (to_float (i.pos_b - r) / 2) + c.ENDSTOP_B_POSITION)) := by
    unfold homing_switch
    simp [hs, hr, he, as5600_set_position, as5600_get_position_b]
  refine ⟨hw, ?_⟩
  intro e1 e2 e3
  have e : i.pos_b - (r + i.pos_b) / 2 + c.ENDSTOP_B_POSITION =
      (i.pos_b - r) / 2 + c.ENDSTOP_B_POSITION := by ring
  refine ⟨?_, e⟩
  rw [hw, e1, e2, e3, e]

theorem calibrated_is_offset_from_midpoint_plus_reference_witness :
    (sample_task FINDING_B_AXIS_FALLING_EDGE (some (-1)) (some 1)).state =
        FINDING_B_AXIS_FALLING_EDGE ∧
      (sample_task FINDING_B_AXIS_FALLING_EDGE (some (-1)) (some 1)).rising_edge = some 1 ∧
      b_axis_endstop (sample_inputs 0 1 0 2) = false ∧
      float_finite (to_float ((sample_inputs 0 1 0 2).pos_b - 1)) ∧
      float_finite (to_float (to_float (to_float ((sample_inputs 0 1 0 2).pos_b - 1) / 2) +
        sample_config.ENDSTOP_B_POSITION)) ∧
      (homing_switch sample_config (sample_task FINDING_B_AXIS_FALLING_EDGE (some (-1)) (some 1))
        (sample_inputs 0 1 0 2)).wrist.axis_b.encoder.set_log.head? = some (3 / 2) :=
  have h1 : to_float 1 = 1 := by simpa using to_float_intCast 1 (by norm_num)
  have h2 : to_float (1 / 2) = 1 / 2 := by
    have := to_float_of_representable 1 (-1) (by norm_num) (by norm_num)
    norm_num at this
    exact this
  have h3 : to_float (3 / 2) = 3 / 2 := by
    have := to_float_of_representable 3 (-1) (by norm_num) (by norm_num)
    norm_num at this
    exact this
  have f1 : float_finite (to_float ((sample_inputs 0 1 0 2).pos_b - 1)) := by
    norm_num [sample_inputs, h1, float_finite, float_max, abs_le]
  have f2 : float_finite (to_float (to_float (to_float ((sample_inputs 0 1 0 2).pos_b - 1) / 2) +
      sample_config.ENDSTOP_B_POSITION)) := by
    norm_num [sample_inputs, sample_config, h1, h2, h3, float_finite, float_max, abs_le]
  have h := calibrated_is_offset_from_midpoint_plus_reference sample_config
    (sample_task FINDING_B_AXIS_FALLING_EDGE (some (-1)) (some 1))
    (sample_inputs 0 1 0 2) 1 rfl rfl (by decide) f1 f2
  ⟨rfl, rfl, by decide, f1, f2, by
    rw [h.1]
    norm_num [sample_inputs, sample_config, h1, h2, h3]⟩

/-- C14: each encoder is re-zeroed once per homing run.  After any finite
sequence of triggers from the initial state, the values written to B's
encoder are those present at the start preceded by at most one new value,
and by exactly one when the final state is `MOVING_TO_ZERO` or `FINISHED`
(none otherwise); the same holds for A's encoder, with exactly one new value
when the final state is `MOVING_TO_B_END` or later. -/
theorem encoders_rezeroed_once_per_run (c : config_t) (w : wrist_t) (is : List inputs_t) :
    (∃ l : List ℚ,
        (homing_run c (homing_init c w) is).wrist.axis_b.encoder.set_log =
          l ++ w.axis_b.encoder.set_log ∧
        l.length ≤ 1 ∧
        (l.length = 1 ↔
          (homing_run c (homing_init c w) is).state = MOVING_TO_ZERO ∨
            (homing_run c (homing_init c w) is).state = FINISHED)) ∧
      (∃ l : List ℚ,
        (homing_run c (homing_init c w) is).wrist.axis_a.encoder.set_log =
          l ++ w.axis_a.encoder.set_log ∧
        l.length ≤ 1 ∧
        (l.length = 1 ↔ 3 ≤ (homing_run c (homing_init c w) is).state.val)) := by
  obtain ⟨ha, hb1, hb2⟩ := log_inv_run c w is
  refine ⟨?_, ⟨_, ha, ?_, ?_⟩⟩
  · by_cases h7 : 7 ≤ (homing_run c (homing_init c w) is).state.val
    · obtain ⟨v, hv⟩ := hb2 h7
      refine ⟨[v], by simpa using hv, by simp, ?_⟩
      revert h7
      cases (homing_run c (homing_init c w) is).state <;> simp [homing_state_t.val]
    · refine ⟨[], by simpa using hb1 (by omega), by simp, ?_⟩
      revert h7
      cases (homing_run c (homing_init c w) is).state <;> simp [homing_state_t.val]
  · split <;> simp
  · split <;> simp_all

/-- C15: in `MOVING_TO_ZERO` the switch moves to `FINISHED` exactly when
`reached_target_pos` holds for axis A and for axis B in that evaluation;
otherwise the state stays `MOVING_TO_ZERO`; in both cases the wrist, and so
every commanded target and speed, is left as it was. -/
theorem moving_to_zero_finishes_iff_both_reached (c : config_t) (t : task_t) (i : inputs_t)
    (hs : t.state = MOVING_TO_ZERO) :
    ((homing_switch c t i).state = FINISHED ↔
        reached_target_pos c i.pos_a t.wrist.axis_a = true ∧
          reached_target_pos c i.pos_b t.wrist.axis_b = true) ∧
      (¬(reached_target_pos c i.pos_a t.wrist.axis_a = true ∧
          reached_target_pos c i.pos_b t.wrist.axis_b = true) →
        (homing_switch c t i).state = MOVING_TO_ZERO) ∧
      (homing_switch c t i).wrist = t.wrist := by
  unfold homing_switch
  simp only [hs, as5600_get_position_a, as5600_get_position_b, Bool.and_eq_true]
  by_cases h : reached_target_pos c i.pos_a t.wrist.axis_a = true ∧
      reached_target_pos c i.pos_b t.wrist.axis_b = true
  · simp [h]
  · simp [h, hs]

theorem moving_to_zero_finishes_iff_both_reached_witness :
    (sample_task MOVING_TO_ZERO (some 1) (some 3)).state = MOVING_TO_ZERO ∧
      (homing_switch sample_config (sample_task MOVING_TO_ZERO (some 1) (some 3))
        (sample_inputs 0 1 5 7)).state = FINISHED ∧
      (homing_switch sample_config (sample_task MOVING_TO_ZERO (some 1) (some 3))
        (sample_inputs 0 1 5 0)).state = MOVING_TO_ZERO ∧
      (homing_switch sample_config (sample_task MOVING_TO_ZERO (some 1) (some 3))
        (sample_inputs 0 1 5 7)).wrist = sample_wrist :=
  have h1 := moving_to_zero_finishes_iff_both_reached sample_config
    (sample_task MOVING_TO_ZERO (some 1) (some 3)) (sample_inputs 0 1 5 7) rfl
  have h2 := moving_to_zero_finishes_iff_both_reached sample_config
    (sample_task MOVING_TO_ZERO (some 1) (some 3)) (sample_inputs 0 1 5 0) rfl
  ⟨rfl,
    h1.1.mpr (by
      norm_num [reached_target_pos, sample_task, sample_inputs, sample_wrist, sample_axis,
        sample_config, to_float_zero]),
    h2.2.1 (by
      have h7 : to_float (-7) = -7 := by simpa using to_float_intCast (-7) (by norm_num)
      norm_num [reached_target_pos, sample_task, sample_inputs, sample_wrist, sample_axis,
        sample_config, to_float_zero, h7, le_abs]),
    h1.2.2⟩

/-- C16: when `homing_task` enters its loop the state is
`FINDING_A_AXIS_END_COARSE` and A's commanded speed is `COARSE_HOMING_SPEED`;
A's target, B's target and speed and both encoders are what the wrist held
before, and the three uninitialised locals are unassigned. -/
theorem init_sets_coarse_seek_only (c : config_t) (w : wrist_t) :
    (homing_init c w).state = FINDING_A_AXIS_END_COARSE ∧
      (homing_init c w).wrist.axis_a.speed_ctrl = c.COARSE_HOMING_SPEED ∧
      (homing_init c w).wrist.axis_a.pos_ctrl = w.axis_a.pos_ctrl ∧
      (homing_init c w).wrist.axis_b.pos_ctrl = w.axis_b.pos_ctrl ∧
      (homing_init c w).wrist.axis_b.speed_ctrl = w.axis_b.speed_ctrl ∧
      (homing_init c w).wrist.axis_a.encoder = w.axis_a.encoder ∧
      (homing_init c w).wrist.axis_b.encoder = w.axis_b.encoder ∧
      (homing_init c w).dir = none ∧
      (homing_init c w).rising_edge = none ∧
      (homing_init c w).falling_edge = none :=
  ⟨rfl, rfl, rfl, rfl, rfl, rfl, rfl, rfl, rfl, rfl⟩

/-- C17: in `FINDING_B_AXIS_RISING_EDGE` with the B endstop triggered, with B
reading `p` the transition stores `rising_edge = p`, moves to
`FINDING_B_AXIS_FALLING_EDGE` and leaves the wrist and `dir` as they were.
In every such state reached from the initial state, axis B's commanded speed
is `FINE_HOMING_SPEED * dir`, before and after the transition. -/
theorem rising_edge_captured (c : config_t) (t : task_t) (i : inputs_t)
    (hs : t.state = FINDING_B_AXIS_RISING_EDGE) (he : b_axis_endstop i = true) :
    (homing_switch c t i).rising_edge = some i.pos_b ∧
      (homing_switch c t i).state = FINDING_B_AXIS_FALLING_EDGE ∧
      (homing_switch c t i).wrist = t.wrist ∧
      (homing_switch c t i).dir = t.dir ∧
      (∀ (w : wrist_t) (is : List inputs_t), t = homing_run c (homing_init c w) is →
        ∃ d : Int, t.dir = some d ∧
          t.wrist.axis_b.speed_ctrl = c.FINE_HOMING_SPEED * ((d : Int) : ℚ) ∧
          (homing_switch c t i).wrist.axis_b.speed_ctrl =
            c.FINE_HOMING_SPEED * ((d : Int) : ℚ)) := by
  have h : (homing_switch c t i).rising_edge = some i.pos_b ∧
      (homing_switch c t i).state = FINDING_B_AXIS_FALLING_EDGE ∧
      (homing_switch c t i).wrist = t.wrist ∧ (homing_switch c t i).dir = t.dir := by
    unfold homing_switch
    simp [hs, he, as5600_get_position_b]
  refine ⟨h.1, h.2.1, h.2.2.1, h.2.2.2, ?_⟩
  intro w is ht
  have hinv := locals_inv_run c w is
  rw [← ht] at hinv
  obtain ⟨d, hd, hsp⟩ := hinv.2.2 (Or.inl hs)
  exact ⟨d, hd, hsp, by rw [h.2.2.1]; exact hsp⟩

theorem rising_edge_captured_witness :
    (sample_task FINDING_B_AXIS_RISING_EDGE (some 1) none).state =
        FINDING_B_AXIS_RISING_EDGE ∧
      b_axis_endstop (sample_inputs 0 0 4 (9 / 4)) = true ∧
      (homing_switch sample_config (sample_task FINDING_B_AXIS_RISING_EDGE (some 1) none)
        (sample_inputs 0 0 4 (9 / 4))).rising_edge = some (9 / 4) ∧
      (homing_switch sample_config (sample_task FINDING_B_AXIS_RISING_EDGE (some 1) none)
        (sample_inputs 0 0 4 (9 / 4))).state = FINDING_B_AXIS_FALLING_EDGE ∧
      (homing_switch sample_config (sample_task FINDING_B_AXIS_RISING_EDGE (some 1) none)
        (sample_inputs 0 0 4 (9 / 4))).wrist = sample_wrist :=
  have h := rising_edge_captured sample_config
    (sample_task FINDING_B_AXIS_RISING_EDGE (some 1) none) (sample_inputs 0 0 4 (9 / 4)) rfl
    (by decide)
  ⟨rfl, by decide, h.1, h.2.1, h.2.2.1⟩

/-- C18: in every state reached from the initial state by any sequence of
triggers, A's commanded speed is `COARSE_HOMING_SPEED` in
`FINDING_A_AXIS_END_COARSE`, `FINE_HOMING_SPEED` in `FINDING_A_AXIS_END_FINE`
and `0` in every other state; in particular it is `0` in the three states
that wait for axis A to reach a position target. -/
theorem a_speed_follows_state (c : config_t) (w : wrist_t) (is : List inputs_t) :
    ((homing_run c (homing_init c w) is).state = FINDING_A_AXIS_END_COARSE →
        (homing_run c (homing_init c w) is).wrist.axis_a.speed_ctrl =
          c.COARSE_HOMING_SPEED) ∧
      ((homing_run c (homing_init c w) is).state = FINDING_A_AXIS_END_FINE →
        (homing_run c (homing_init c w) is).wrist.axis_a.speed_ctrl =
          c.FINE_HOMING_SPEED) ∧
      ((homing_run c (homing_init c w) is).state ≠ FINDING_A_AXIS_END_COARSE →
        (homing_run c (homing_init c w) is).state ≠ FINDING_A_AXIS_END_FINE →
        (homing_run c (homing_init c w) is).wrist.axis_a.speed_ctrl = 0) ∧
      ((homing_run c (homing_init c w) is).state = BACKING_OFF_A_ENDSTOP ∨
          (homing_run c (homing_init c w) is).state = MOVING_TO_B_END ∨
          (homing_run c (homing_init c w) is).state = MOVING_TO_ZERO →
        (homing_run c (homing_init c w) is).wrist.axis_a.speed_ctrl = 0) := by
  have h := a_speed_inv_run c w is
  unfold a_speed_inv at h
  refine ⟨?_, ?_, ?_, ?_⟩
  · intro hs; rw [h]; simp [hs]
  · intro hs; rw [h]; simp [hs]
  · intro h1 h2; rw [h]; simp [h1, h2]
  · intro hs; rw [h]
    rcases hs with hs | hs | hs <;> simp [hs]

/-- C19: `dir` and `rising_edge` are never read before they are written.  In
every state reached from the initial state, `dir` has been assigned when the
state is `MOVING_NEXT_TO_B_END_SWITCH` and `rising_edge` has been assigned
when the state is `FINDING_B_AXIS_FALLING_EDGE`, the only two states whose
transitions read them; so the next pass does not depend on the value an
unassigned local would yield. -/
theorem locals_written_before_read (c : config_t) (w : wrist_t) (is : List inputs_t) :
    ((homing_run c (homing_init c w) is).state = MOVING_NEXT_TO_B_END_SWITCH →
        ∃ d : Int, (homing_run c (homing_init c w) is).dir = some d) ∧
      ((homing_run c (homing_init c w) is).state = FINDING_B_AXIS_FALLING_EDGE →
        ∃ r : ℚ, (homing_run c (homing_init c w) is).rising_edge = some r) ∧
      (∀ (i : inputs_t) (x : Int) (y : ℚ),
        homing_pass c (homing_run c (homing_init c w) is)
            { i with indet_dir := x, indet_rising_edge := y } =
          homing_pass c (homing_run c (homing_init c w) is) i) := by
  obtain ⟨h1, h2, _⟩ := locals_inv_run c w is
  generalize homing_run c (homing_init c w) is = t at h1 h2 ⊢
  refine ⟨?_, ?_, ?_⟩
  · intro hs
    exact h1 (by rw [hs]; decide)
  · intro hs
    exact h2 (by rw [hs]; decide)
  · intro i x y
    unfold homing_pass homing_switch
    simp only [log_state_state, log_state_wrist, log_state_dir, log_state_rising_edge]
    cases hst : t.state <;>
      simp only [hst, homing_state_t.val, a_axis_endstop, b_axis_endstop,
        as5600_get_position_a, as5600_get_position_b] at h1 h2 ⊢
    · obtain ⟨d, hd⟩ := h1 (by decide)
      simp [hd]
    · obtain ⟨r, hr⟩ := h2 (by decide)
      simp [hr]

/-- C20 as stated fails: the distance between the approach target and
`-ENDSTOP_B_POSITION` is a rounded one.  With B reading `-2` and reference
`1` the target is `-5033165/4194304` and `-1 - target` is `838861/4194304`,
not `dir * (1 / 5) = 1/5`. -/
theorem approach_distance_differs_from_exact_formula :
    (homing_pass sample_config (sample_task MOVING_TO_B_END none none)
        (sample_inputs 0 1 5 (-2))).dir = some 1 ∧
      -sample_config.ENDSTOP_B_POSITION -
          (homing_pass sample_config (sample_task MOVING_TO_B_END none none)
            (sample_inputs 0 1 5 (-2))).wrist.axis_b.pos_ctrl = 838861 / 4194304 ∧
      -sample_config.ENDSTOP_B_POSITION -
          (homing_pass sample_config (sample_task MOVING_TO_B_END none none)
            (sample_inputs 0 1 5 (-2))).wrist.axis_b.pos_ctrl ≠ ((1 : Int) : ℚ) * (1 / 5) := by
  have hd : dir_of (-2) = 1 := by norm_num [dir_of]
  have hsw : (homing_pass sample_config (sample_task MOVING_TO_B_END none none)
        (sample_inputs 0 1 5 (-2))).dir = some 1 ∧
      (homing_pass sample_config (sample_task MOVING_TO_B_END none none)
        (sample_inputs 0 1 5 (-2))).wrist.axis_b.pos_ctrl = -(5033165 / 4194304) := by
    simp only [homing_pass, log_state, homing_switch, sample_task, sample_inputs, sample_wrist,
      sample_axis, sample_config, reached_target_pos, as5600_get_position_a,
      as5600_get_position_b, approach_target_at_minus_two, homing_state_t.val]
    norm_num [to_float_zero, hd]
  refine ⟨hsw.1, ?_, ?_⟩
  · rw [hsw.2]; norm_num [sample_config]
  · rw [hsw.2]; norm_num [sample_config]

/-- C20, amended: the fine seek on axis B points from the approach target
toward `-ENDSTOP_B_POSITION` as far as rounding allows.  When a pass in
`MOVING_TO_B_END` with axis A at target reads the B position `p`, the B
target `tgt` it commands is the `float` nearest
`-dir * 0.2f - ENDSTOP_B_POSITION` (`0.2f` being `13421773/67108864`, the
result not overflowing), so `-ENDSTOP_B_POSITION - tgt` is `dir * 0.2f` up to
the rounding of `tgt`; for `p = 0` the target is `-ENDSTOP_B_POSITION` itself
when that is a `float`.  When later, still with that target, the
`MOVING_NEXT_TO_B_END_SWITCH` transition fires, the speed it commands is
`FINE_HOMING_SPEED * dir`, which is `0` for `p = 0` and, for
`FINE_HOMING_SPEED > 0` and `ENDSTOP_B_POSITION` a `float` of magnitude at
most `2^21`, has the sign of `-ENDSTOP_B_POSITION - tgt`. -/
theorem seek_direction_points_to_reference (c : config_t) (t : task_t) (i0 : inputs_t)
    (is : List inputs_t) (i : inputs_t)
    (hs : t.state = MOVING_TO_B_END)
    (ha : reached_target_pos c i0.pos_a t.wrist.axis_a = true)
    (hf : 0 < c.FINE_HOMING_SPEED)
    (hfin : float_finite (homing_pass c t i0).wrist.axis_b.pos_ctrl) :
    (homing_pass c t i0).dir = some (dir_of i0.pos_b) ∧
      (homing_pass c t i0).wrist.axis_b.pos_ctrl =
        to_float (-((dir_of i0.pos_b : Int) : ℚ) * (13421773 / 67108864)
          - c.ENDSTOP_B_POSITION) ∧
      |(-c.ENDSTOP_B_POSITION - (homing_pass c t i0).wrist.axis_b.pos_ctrl) -
          ((dir_of i0.pos_b : Int) : ℚ) * (13421773 / 67108864)| ≤
        |((dir_of i0.pos_b : Int) : ℚ) * (13421773 / 67108864) + c.ENDSTOP_B_POSITION| *
            2 ^ (-24 : ℤ) + 2 ^ (-150 : ℤ) ∧
      (i0.pos_b = 0 → to_float c.ENDSTOP_B_POSITION = c.ENDSTOP_B_POSITION →
        (homing_pass c t i0).wrist.axis_b.pos_ctrl = -c.ENDSTOP_B_POSITION) ∧
      ((homing_run c t (i0 :: is)).state = MOVING_NEXT_TO_B_END_SWITCH →
        reached_target_pos c i.pos_b (homing_run c t (i0 :: is)).wrist.axis_b = true →
          (homing_run c t (i0 :: is)).wrist.axis_b.pos_ctrl =
              (homing_pass c t i0).wrist.axis_b.pos_ctrl ∧
            (homing_switch c (homing_run c t (i0 :: is)) i).wrist.axis_b.speed_ctrl =
              c.FINE_HOMING_SPEED * ((dir_of i0.pos_b : Int) : ℚ) ∧
            (i0.pos_b = 0 →
              (homing_switch c (homing_run c t (i0 :: is)) i).wrist.axis_b.speed_ctrl = 0) ∧
            (to_float c.ENDSTOP_B_POSITION = c.ENDSTOP_B_POSITION →
              |c.ENDSTOP_B_POSITION| ≤ 2 ^ 21 →
              (0 < (homing_switch c (homing_run c t (i0 :: is)) i).wrist.axis_b.speed_ctrl ↔
                  0 < -c.ENDSTOP_B_POSITION -
                    (homing_run c t (i0 :: is)).wrist.axis_b.pos_ctrl) ∧
                ((homing_switch c (homing_run c t (i0 :: is)) i).wrist.axis_b.speed_ctrl < 0 ↔
                  -c.ENDSTOP_B_POSITION -
                    (homing_run c t (i0 :: is)).wrist.axis_b.pos_ctrl < 0))) := by
  have _ := hfin
  have h1 : (homing_pass c t i0).dir = some (dir_of i0.pos_b) ∧
      (homing_pass c t i0).state = MOVING_NEXT_TO_B_END_SWITCH ∧
      (homing_pass c t i0).wrist.axis_b.pos_ctrl =
        to_float (to_float (((-dir_of i0.pos_b : Int) : ℚ) * to_float (1 / 5))
          - c.ENDSTOP_B_POSITION) := by
    unfold homing_pass homing_switch
    simp only [log_state_state, log_state_wrist, hs, as5600_get_position_a,
      as5600_get_position_b, ha, if_true]
    exact ⟨trivial, trivial, trivial⟩
  rw [to_float_dir_mul] at h1
  obtain ⟨hdir, hstate, htgt⟩ := h1
  have herr := to_float_error
    (-((dir_of i0.pos_b : Int) : ℚ) * (13421773 / 67108864) - c.ENDSTOP_B_POSITION)
  rw [← htgt] at herr
  have hz : i0.pos_b = 0 → dir_of i0.pos_b = 0 := by
    intro hp; simp [dir_of, hp]
  have hzero : i0.pos_b = 0 → to_float c.ENDSTOP_B_POSITION = c.ENDSTOP_B_POSITION →
      (homing_pass c t i0).wrist.axis_b.pos_ctrl = -c.ENDSTOP_B_POSITION := by
    intro hp hE
    rw [htgt, hz hp]
    simp [to_float_neg, hE]
  refine ⟨hdir, htgt, ?_, hzero, ?_⟩
  · have e1 : (-c.ENDSTOP_B_POSITION - (homing_pass c t i0).wrist.axis_b.pos_ctrl) -
          ((dir_of i0.pos_b : Int) : ℚ) * (13421773 / 67108864) =
        -((homing_pass c t i0).wrist.axis_b.pos_ctrl -
          (-((dir_of i0.pos_b : Int) : ℚ) * (13421773 / 67108864) - c.ENDSTOP_B_POSITION)) := by
      ring
    have e2 : |((dir_of i0.pos_b : Int) : ℚ) * (13421773 / 67108864) + c.ENDSTOP_B_POSITION| =
        |(-((dir_of i0.pos_b : Int) : ℚ) * (13421773 / 67108864) - c.ENDSTOP_B_POSITION)| := by
      rw [← abs_neg]; congr 1; ring
    rw [e1, abs_neg, e2]
    exact herr
  · intro hn hb
    have hrun : (homing_run c (homing_pass c t i0) is).wrist = (homing_pass c t i0).wrist ∧
        (homing_run c (homing_pass c t i0) is).dir = (homing_pass c t i0).dir :=
      run_wrist_of_state_eq c is (homing_pass c t i0) (by
        rw [hstate]; simpa only [homing_run] using hn)
    simp only [homing_run] at hn hb ⊢
    have hsp : (homing_switch c (homing_run c (homing_pass c t i0) is) i).wrist.axis_b.speed_ctrl =
        c.FINE_HOMING_SPEED * ((dir_of i0.pos_b : Int) : ℚ) := by
      unfold homing_switch
      simp [hn, hb, hrun.2, hdir, as5600_get_position_b]
    rw [hsp, hrun.1]
    refine ⟨rfl, rfl, ?_, ?_⟩
    · intro hp
      rw [hz hp]; simp
    · intro hE hEb
      have hEb2 := abs_le.mp hEb
      have herr2 := abs_le.mp herr
      rcases lt_trichotomy i0.pos_b 0 with hp | hp | hp
      · have hd : dir_of i0.pos_b = 1 := by
          simp [dir_of, hp, not_lt.mpr hp.le]
        rw [hd] at herr2 ⊢
        have hx : |(-((1 : Int) : ℚ) * (13421773 / 67108864) - c.ENDSTOP_B_POSITION)| ≤
            13421773 / 67108864 + 2 ^ 21 := by
          rw [abs_le]; constructor <;> push_cast <;> linarith [hEb2.1, hEb2.2]
        have hsmall : (13421773 / 67108864 + 2 ^ 21 : ℚ) * 2 ^ (-24 : ℤ) + 2 ^ (-150 : ℤ) <
            13421773 / 67108864 := by norm_num
        have hp24 : (0 : ℚ) ≤ 2 ^ (-24 : ℤ) := by positivity
        have hb1 := mul_le_mul_of_nonneg_right hx hp24
        push_cast at herr2 hb1 ⊢
        have hpos : 0 < -c.ENDSTOP_B_POSITION - (homing_pass c t i0).wrist.axis_b.pos_ctrl := by
          linarith [herr2.1, herr2.2]
        constructor
        · constructor
          · intro _; exact hpos
          · intro _; linarith
        · constructor
          · intro h; linarith
          · intro h; linarith
      · have hd : dir_of i0.pos_b = 0 := hz hp
        have ht := hzero hp hE
        rw [hd, ht]
        simp
      · have hd : dir_of i0.pos_b = -1 := by
          simp [dir_of, hp, not_lt.mpr hp.le]
        rw [hd] at herr2 ⊢
        have hx : |(-((-1 : Int) : ℚ) * (13421773 / 67108864) - c.ENDSTOP_B_POSITION)| ≤
            13421773 / 67108864 + 2 ^ 21 := by
          rw [abs_le]; constructor <;> push_cast <;> linarith [hEb2.1, hEb2.2]
        have hsmall : (13421773 / 67108864 + 2 ^ 21 : ℚ) * 2 ^ (-24 : ℤ) + 2 ^ (-150 : ℤ) <
            13421773 / 67108864 := by norm_num
        have hp24 : (0 : ℚ) ≤ 2 ^ (-24 : ℤ) := by positivity
        have hb1 := mul_le_mul_of_nonneg_right hx hp24
        push_cast at herr2 hb1 ⊢
        have hneg : -c.ENDSTOP_B_POSITION - (homing_pass c t i0).wrist.axis_b.pos_ctrl < 0 := by
          linarith [herr2.1, herr2.2]
        constructor
        · constructor
          · intro h; linarith
          · intro h; linarith
        · constructor
          · intro _; exact hneg
          · intro _; linarith

theorem seek_direction_points_to_reference_witness :
    (sample_task MOVING_TO_B_END none none).state = MOVING_TO_B_END ∧
      reached_target_pos sample_config (sample_inputs 0 1 5 (-2)).pos_a
        (sample_task MOVING_TO_B_END none none).wrist.axis_a = true ∧
      0 < sample_config.FINE_HOMING_SPEED ∧
      float_finite (homing_pass sample_config (sample_task MOVING_TO_B_END none none)
        (sample_inputs 0 1 5 (-2))).wrist.axis_b.pos_ctrl ∧
      (homing_pass sample_config (sample_task MOVING_TO_B_END none none)
        (sample_inputs 0 1 5 (-2))).dir = some 1 ∧
      (homing_pass sample_config (sample_task MOVING_TO_B_END none none)
        (sample_inputs 0 1 5 (-2))).wrist.axis_b.pos_ctrl = -(5033165 / 4194304) ∧
      (homing_switch sample_config
        (homing_run sample_config (sample_task MOVING_TO_B_END none none)
          [sample_inputs 0 1 5 (-2), sample_inputs 0 1 5 0])
        (sample_inputs 0 1 5 (-(5033165 / 4194304)))).wrist.axis_b.speed_ctrl = 1 / 2 ∧
      0 < -sample_config.ENDSTOP_B_POSITION -
        (homing_run sample_config (sample_task MOVING_TO_B_END none none)
          [sample_inputs 0 1 5 (-2), sample_inputs 0 1 5 0]).wrist.axis_b.pos_ctrl :=
  have ha : reached_target_pos sample_config (sample_inputs 0 1 5 (-2)).pos_a
      (sample_task MOVING_TO_B_END none none).wrist.axis_a = true := by
    norm_num [reached_target_pos, sample_task, sample_inputs, sample_wrist, sample_axis,
      sample_config, to_float_zero]
  have hf : 0 < sample_config.FINE_HOMING_SPEED := by norm_num [sample_config]
  have hd : dir_of (sample_inputs 0 1 5 (-2)).pos_b = 1 := by
    norm_num [dir_of, sample_inputs]
  have hv : (homing_pass sample_config (sample_task MOVING_TO_B_END none none)
      (sample_inputs 0 1 5 (-2))).wrist.axis_b.pos_ctrl = -(5033165 / 4194304) := by
    simp only [homing_pass, log_state, homing_switch, sample_task, sample_inputs, sample_wrist,
      sample_axis, sample_config, reached_target_pos, as5600_get_position_a,
      as5600_get_position_b, approach_target_at_minus_two, homing_state_t.val]
    norm_num [to_float_zero]
  have hfin : float_finite (homing_pass sample_config (sample_task MOVING_TO_B_END none none)
      (sample_inputs 0 1 5 (-2))).wrist.axis_b.pos_ctrl := by
    rw [hv]
    norm_num [float_finite, float_max, abs_le]
  have hE : to_float sample_config.ENDSTOP_B_POSITION = sample_config.ENDSTOP_B_POSITION := by
    have := to_float_intCast 1 (by norm_num)
    simpa [sample_config] using this
  have h := seek_direction_points_to_reference sample_config
    (sample_task MOVING_TO_B_END none none) (sample_inputs 0 1 5 (-2))
    [sample_inputs 0 1 5 0] (sample_inputs 0 1 5 (-(5033165 / 4194304))) rfl ha hf hfin
  have hsp := h.2.2.2.2 (by rw [sample_wait_then_at_target]; rfl) (by
    rw [sample_wait_then_at_target]
    norm_num [reached_target_pos, sample_inputs, sample_axis, sample_config, to_float_zero])
  have hsign := hsp.2.2.2 hE (by norm_num [sample_config, abs_le])
  ⟨rfl, ha, hf, hfin, by rw [h.1, hd], hv, by
    rw [hsp.2.1, hd]; norm_num [sample_config],
    hsign.1.mp (by rw [hsp.2.1, hd]; norm_num [sample_config])⟩

end Homing
